import Mathlib

/-!
# Verification of the html-to-pptx autofixer against its specification

This file contains a shallow embedding, in Lean 4, of the two source modules
of the repository: the HTML auto-fix rule engine (`autoFixHtml` and its three
fixer classes) and the `html2pptx` layout-extraction/validation engine.

Modelling conventions:
* CSS numeric quantities (pixel widths, font sizes, angles) are exact
  rationals (`ℚ`); the source manipulates IEEE doubles, but every computation
  checked here stays within exactly representable decimal arithmetic.
* JS strings are `String`/`List Char`; the regular-expression operations of
  the source are embedded as explicit scanners with JS leftmost-match,
  greedy semantics.
* Fallible operations (`parseFloat` returning NaN, regex search failing)
  return `Option`.
* DOM documents are modelled by explicit tree/record types carrying the
  computed-style fields that the source reads.

Definitions come first, then the theorems for claims C1–C10.
-/

-- ============================================================
-- Basic string and character utilities (JS semantics)
-- ============================================================

/-- ASCII part of the JS `\s` whitespace class. -/
def isWsChar (c : Char) : Bool :=
  c == ' ' || c == '\t' || c == '\n' || c == '\r' || c == '\x0b' || c == '\x0c'

/-- Drop leading whitespace (JS `replace(/^\s+/, "")`). -/
def trimLeadingL (cs : List Char) : List Char := cs.dropWhile isWsChar

/-- Drop trailing whitespace (JS `replace(/\s+$/, "")`). -/
def trimTrailingL (cs : List Char) : List Char := (cs.reverse.dropWhile isWsChar).reverse

def trimLeading (s : String) : String := String.mk (trimLeadingL s.data)

def trimTrailing (s : String) : String := String.mk (trimTrailingL s.data)

/-- JS `String.prototype.trim`. -/
def jsTrim (s : String) : String := String.mk (trimTrailingL (trimLeadingL s.data))

/-- Does the second list start with the first one? -/
def startsWithL : List Char → List Char → Bool
  | [], _ => true
  | _ :: _, [] => false
  | a :: as, b :: bs => a == b && startsWithL as bs

/-- If `hay` starts with `pat`, return the remainder after `pat`. -/
def dropLit : List Char → List Char → Option (List Char)
  | [], hay => some hay
  | _ :: _, [] => none
  | a :: as, b :: bs => if a == b then dropLit as bs else none

/-- JS `String.prototype.includes` on char lists (substring search). -/
def containsL (pat : List Char) : List Char → Bool
  | [] => startsWithL pat []
  | c :: rest => startsWithL pat (c :: rest) || containsL pat rest

/-- JS `haystack.includes(pat)`. -/
def strContainsB (hay pat : String) : Bool := containsL pat.data hay.data

/-- JS `haystack.startsWith(pat)`. -/
def strStartsWithB (hay pat : String) : Bool := startsWithL pat.data hay.data

/-- Substring occurrence as a proposition (used in theorem statements). -/
def ContainsSub (hay needle : String) : Prop := ∃ p q, hay = p ++ (needle ++ q)

/-- First `n` chars of a string (JS `substring(0, n)`). -/
def strTake (s : String) (n : ℕ) : String := String.mk (s.data.take n)

/-- JS `Array.prototype.join(sep)`. -/
def joinSep (sep : String) : List String → String
  | [] => ""
  | [x] => x
  | x :: y :: rest => x ++ sep ++ joinSep sep (y :: rest)

/-- JS `String.prototype.split` with a single-character separator, on char
lists (every occurrence splits; leading/trailing separators give empty
fields). -/
def splitOnCharAux (sep : Char) : List Char → List Char → List (List Char)
  | [], acc => [acc.reverse]
  | c :: rest, acc =>
    if c == sep then acc.reverse :: splitOnCharAux sep rest []
    else splitOnCharAux sep rest (c :: acc)

def splitOnCharStr (sep : Char) (s : String) : List String :=
  (splitOnCharAux sep s.data []).map String.mk

/-- JS `toLowerCase` (ASCII, sufficient for the strings the source handles). -/
def strToLower (s : String) : String := String.mk (s.data.map Char.toLower)

/-- JS `toUpperCase` (ASCII). -/
def strToUpper (s : String) : String := String.mk (s.data.map Char.toUpper)

/-- Digits to the natural number they denote in base 10. -/
def digitsToNat (cs : List Char) : ℕ := cs.foldl (fun acc c => acc * 10 + (c.toNat - 48)) 0

/--
JS `parseFloat`, restricted to the plain decimal numerals that computed CSS
styles produce (optional sign, integer part, optional fraction; exponents and
`Infinity` are outside the modelled fragment).  `none` stands for `NaN`.
-/
def jsParseFloat (s : String) : Option ℚ :=
  let cs := s.data.dropWhile isWsChar
  let sgn : ℚ := if cs.head? = some '-' then -1 else 1
  let cs := if cs.head? = some '-' ∨ cs.head? = some '+' then cs.tail else cs
  let ip := cs.takeWhile Char.isDigit
  let rest := cs.dropWhile Char.isDigit
  let fp := if rest.head? = some '.' then rest.tail.takeWhile Char.isDigit else []
  if ip.isEmpty ∧ fp.isEmpty then none
  else some (sgn * ((digitsToNat ip : ℚ) + (digitsToNat fp : ℚ) / (10 : ℚ) ^ fp.length))

/-- JS `parseInt`, restricted to plain optionally-signed decimal numerals.
`none` stands for `NaN`. -/
def jsParseInt (s : String) : Option ℤ :=
  let cs := s.data.dropWhile isWsChar
  let neg := cs.head? = some '-'
  let cs := if cs.head? = some '-' ∨ cs.head? = some '+' then cs.tail else cs
  let ip := cs.takeWhile Char.isDigit
  if ip.isEmpty then none
  else some (if neg then -(digitsToNat ip : ℤ) else (digitsToNat ip : ℤ))

/-- JS `Math.round` (round half toward positive infinity). -/
def jsRound (q : ℚ) : ℤ := ⌊q + 1/2⌋

/-- Render a number the way the embedded messages need it; integral rationals
print like JS integers do. -/
def jsNumStr (q : ℚ) : String := if q.den = 1 then toString q.num else toString q

-- ============================================================
-- Unit conversion helpers (source constants PT_PER_PX, PX_PER_IN)
-- ============================================================

/-- `const pxToInch = (px) => px / PX_PER_IN` with `PX_PER_IN = 96`. -/
def pxToInch (px : ℚ) : ℚ := px / 96

/-- `const pxToPoints = (pxStr) => parseFloat(pxStr) * PT_PER_PX` with
`PT_PER_PX = 0.75`; the numeric value is taken after `parseFloat`. -/
def pxToPoints (px : ℚ) : ℚ := px * (3/4)

-- ============================================================
-- C6: rotation derivation (`getRotation`)
-- ============================================================

/-- Truncation toward zero, matching how the JS `%` operator divides. -/
def truncQ (q : ℚ) : ℤ := if 0 ≤ q then ⌊q⌋ else ⌈q⌉

/-- The JS `%` operator on numbers: remainder carrying the dividend's sign. -/
def jsRem (a n : ℚ) : ℚ := a - n * (truncQ (a / n) : ℚ)

/--
The `transform` computed style, as `getRotation` case-splits on it:
either `"none"`, or a string matching `rotate\((-?\d+(?:\.\d+)?)deg\)`
(carrying the parsed degree value), or a string matching `matrix\(([^)]+)\)`
(carrying `Math.round(atan2(b, a) * 180 / π)`, an integer — the rounded
result is carried directly because `atan2` over floats has no exact
counterpart; every theorem below holds for an arbitrary integer there),
or a string matching neither regex.
-/
inductive CssTransform where
  | noTransform
  | rotateDeg (d : ℚ)
  | matrixRot (r : ℤ)
  | unmatched
deriving DecidableEq

/-- Contribution of `writing-mode` to the angle (source lines 1051–1057). -/
def writingModeAngle (writingMode : String) : ℚ :=
  if writingMode = "vertical-rl" then 90
  else if writingMode = "vertical-lr" then 270
  else 0

/-- Contribution of the CSS transform to the angle (source lines 1060–1076). -/
def transformAngle : CssTransform → ℚ
  | .noTransform => 0
  | .rotateDeg d => d
  | .matrixRot r => (r : ℚ)
  | .unmatched => 0

/--
`getRotation(transform, writingMode)` (source lines 1045–1083): compose
writing-mode and transform angles, normalize with `angle %= 360;
if (angle < 0) angle += 360`, and return `null` for a zero result.
-/
def getRotation (transform : CssTransform) (writingMode : String) : Option ℚ :=
  let angle := writingModeAngle writingMode + transformAngle transform
  let angle := jsRem angle 360
  let angle := if angle < 0 then angle + 360 else angle
  if angle = 0 then none else some angle

-- ============================================================
-- C8: border-radius conversion (`rectRadius` closure in extractSlideData)
-- ============================================================

/--
The `rectRadius` IIFE (source lines 1557–1571): `parseFloat` the computed
`border-radius`; `0` stays `0`; percentages at or above 50 give the full
ellipse factor `1`, below 50 the fraction of the shorter side in inches;
`pt` divides by 72; anything else (px) divides by 96.  `none` is the NaN
outcome of an unparsable radius.
-/
def rectRadius (radius : String) (rectW rectH : ℚ) : Option ℚ :=
  match jsParseFloat radius with
  | none => none
  | some radiusValue =>
    if radiusValue = 0 then some 0
    else if strContainsB radius "%" then
      if 50 ≤ radiusValue then some 1
      else some ((radiusValue / 100) * pxToInch (min rectW rectH))
    else if strContainsB radius "pt" then some (radiusValue / 72)
    else some (radiusValue / 96)

-- ============================================================
-- C4: color extraction (`rgbToHex`, `extractAlpha`)
-- ============================================================

/-- Take a maximal nonempty run of decimal digits (`\d+`). -/
def takeDigits1 (cs : List Char) : Option (List Char × List Char) :=
  let d := cs.takeWhile Char.isDigit
  if d.isEmpty then none else some (d, cs.dropWhile Char.isDigit)

/-- Consume `,\s*`. -/
def dropCommaWs (cs : List Char) : Option (List Char) :=
  match cs with
  | ',' :: rest => some (rest.dropWhile isWsChar)
  | _ => none

/-- Match `rgba?\(` at the current position (with the regex backtracking
semantics of `a?` followed by a literal paren). -/
def tryRgbOpen (cs : List Char) : Option (List Char) :=
  match dropLit "rgb".data cs with
  | none => none
  | some r =>
    match r with
    | 'a' :: '(' :: rest => some rest
    | '(' :: rest => some rest
    | _ => none

/-- Match `rgba?\((\d+),\s*(\d+),\s*(\d+)` at the current position,
returning the three captured integers. -/
def tryRgbTripleAt (cs : List Char) : Option (ℕ × ℕ × ℕ) :=
  match tryRgbOpen cs with
  | none => none
  | some r0 =>
    match takeDigits1 r0 with
    | none => none
    | some (d1, r1) =>
      match dropCommaWs r1 with
      | none => none
      | some r2 =>
        match takeDigits1 r2 with
        | none => none
        | some (d2, r3) =>
          match dropCommaWs r3 with
          | none => none
          | some r4 =>
            match takeDigits1 r4 with
            | none => none
            | some (d3, _) => some (digitsToNat d1, digitsToNat d2, digitsToNat d3)

/-- Leftmost match of `rgba?\((\d+),\s*(\d+),\s*(\d+)/` in the string. -/
def searchRgbTriple : List Char → Option (ℕ × ℕ × ℕ)
  | [] => none
  | c :: rest =>
    match tryRgbTripleAt (c :: rest) with
    | some r => some r
    | none => searchRgbTriple rest

/-- `n.toString(16)` for a natural number (lowercase hex digits). -/
def toHexDigits (n : ℕ) : String := String.mk (Nat.toDigits 16 n)

/-- JS `padStart(2, "0")`. -/
def padStart2 (s : String) : String := if s.length < 2 then "0" ++ s else s

/--
`rgbToHex` (source lines 1015–1026): the transparent-background sentinels map
to white `"FFFFFF"`; otherwise search for `rgba?\((\d+),\s*(\d+),\s*(\d+)`
and print the three channels as two lowercase hex digits each; an unmatched
string also falls back to white.
-/
def rgbToHex (rgbStr : String) : String :=
  if rgbStr = "rgba(0, 0, 0, 0)" ∨ rgbStr = "transparent" then "FFFFFF"
  else
    match searchRgbTriple rgbStr.data with
    | none => "FFFFFF"
    | some (r, g, b) => padStart2 (toHexDigits r) ++ padStart2 (toHexDigits g) ++ padStart2 (toHexDigits b)

/-- Match `rgba\((\d+),\s*(\d+),\s*(\d+),\s*([\d.]+)\)` at the current
position, returning the fourth capture (the alpha numeral). -/
def tryRgbaQuadAt (cs : List Char) : Option (List Char) :=
  match dropLit "rgba(".data cs with
  | none => none
  | some r0 =>
    match takeDigits1 r0 with
    | none => none
    | some (_, r1) =>
      match dropCommaWs r1 with
      | none => none
      | some r2 =>
        match takeDigits1 r2 with
        | none => none
        | some (_, r3) =>
          match dropCommaWs r3 with
          | none => none
          | some r4 =>
            match takeDigits1 r4 with
            | none => none
            | some (_, r5) =>
              match dropCommaWs r5 with
              | none => none
              | some r6 =>
                let cap := r6.takeWhile (fun c => c.isDigit || c == '.')
                let r7 := r6.dropWhile (fun c => c.isDigit || c == '.')
                if cap.isEmpty then none
                else
                  match r7 with
                  | ')' :: _ => some cap
                  | _ => none

/-- Leftmost match of the rgba-quadruple regex in the string. -/
def searchRgbaQuad : List Char → Option (List Char)
  | [] => none
  | c :: rest =>
    match tryRgbaQuadAt (c :: rest) with
    | some r => some r
    | none => searchRgbaQuad rest

/--
`extractAlpha` (source lines 1028–1033): if the computed color matches
`rgba\((\d+),\s*(\d+),\s*(\d+),\s*([\d.]+)\)`, convert the alpha channel to a
0–100 transparency percentage as `Math.round((1 - alpha) * 100)`; otherwise
`null`.  (The alpha numerals of computed styles always parse, so the NaN
branch of `parseFloat` is not reachable and is mapped to `none` as well.)
-/
def extractAlpha (rgbStr : String) : Option ℤ :=
  match searchRgbaQuad rgbStr.data with
  | none => none
  | some cap =>
    match jsParseFloat (String.mk cap) with
    | none => none
    | some alpha => some (jsRound ((1 - alpha) * 100))

-- ============================================================
-- C1: error aggregation and final failure of `html2pptx`
-- ============================================================

/-- The numbered items `  ${i + 1}. ${e}` of the multi-error summary
(source lines 1834–1835). -/
def numberedErrorItems (errs : List String) : List String :=
  errs.enum.map (fun p => "  " ++ toString (p.1 + 1) ++ ". " ++ p.2)

/--
The message of the failure raised when validation errors accumulated
(source lines 1829–1837): a single error verbatim, otherwise a numbered
multi-error summary.  `none` when there is no error (no failure raised).
-/
def aggregateErrorMessage (errs : List String) : Option String :=
  match errs with
  | [] => none
  | [e] => some e
  | _ => some ("发现多个校验错误：\n" ++ joinSep "\n" (numberedErrorItems errs))

/-- The catch-all wrapper of `html2pptx` (source lines 1849–1855): prefix the
message with the html file name unless it already starts with it. -/
def wrapFileError (htmlFile msg : String) : String :=
  if strStartsWithB msg htmlFile then msg else htmlFile ++ ": " ++ msg

/--
The error-handling skeleton of `html2pptx` (source lines 1806–1855) as a
function of the accumulated validation errors: if any error accumulated, no
slide is emitted and a single failure is raised whose message is the
aggregated message passed through the file-name wrapper; otherwise the slide
is produced (`Except.ok`).
-/
def html2pptxRun (htmlFile : String) (validationErrors : List String) : Except String Unit :=
  match aggregateErrorMessage validationErrors with
  | some m => Except.error (wrapFileError htmlFile m)
  | none => Except.ok ()

-- ============================================================
-- C7: overflow validation (`getBodyDimensions`, source lines 706–751)
-- ============================================================

/-- `Math.max(0, scrollWidth - width - 1)` — horizontal overflow beyond the
1px tolerance. -/
def widthOverflowPx (width scrollWidth : ℚ) : ℚ := max 0 (scrollWidth - width - 1)

/-- `Math.max(0, scrollHeight - height - 1)` — vertical overflow beyond the
1px tolerance. -/
def heightOverflowPx (height scrollHeight : ℚ) : ℚ := max 0 (scrollHeight - height - 1)

/-- The `directions` array: one entry per overflowing axis, reporting the
overflow amount in pixels. -/
def overflowDirections (width height scrollWidth scrollHeight : ℚ) : List String :=
  (if 0 < widthOverflowPx width scrollWidth then
    [jsNumStr (widthOverflowPx width scrollWidth) ++ "px 水平方向"] else []) ++
  (if 0 < heightOverflowPx height scrollHeight then
    [jsNumStr (heightOverflowPx height scrollHeight) ++ "px 垂直方向"] else [])

/-- The `reminder` string: the 48px footer-margin hint, added exactly when
the vertical overflow (converted to points) is positive. -/
def overflowReminder (height scrollHeight : ℚ) : String :=
  if 0 < pxToPoints (heightOverflowPx height scrollHeight) then
    "（注意：幻灯片底部需预留 48px(0.5 英寸)边距）"
  else ""

/-- The single overflow error message (template literal of lines 743–747). -/
def bodyOverflowMessage (width height scrollWidth scrollHeight : ℚ) : String :=
  ("HTML 内容超出 body 区域（" ++ jsNumStr width ++ "x" ++ jsNumStr height ++ "）：")
    ++ joinSep " 和 " (overflowDirections width height scrollWidth scrollHeight)
    ++ (overflowReminder height scrollHeight ++ " ")

/-- The `errors` list returned by `getBodyDimensions`: empty, or a single
message raised when either axis overflows (in points). -/
def bodyDimensionErrors (width height scrollWidth scrollHeight : ℚ) : List String :=
  if 0 < pxToPoints (widthOverflowPx width scrollWidth)
      ∨ 0 < pxToPoints (heightOverflowPx height scrollHeight) then
    [bodyOverflowMessage width height scrollWidth scrollHeight]
  else []

-- ============================================================
-- C2: `ErrorFixer.save` and `autoFixHtml` (source lines 41–60, 502–548)
-- ============================================================

/-- A flat file system; the newest write for a path shadows older entries. -/
abbrev FileSys := List (String × String)

def fsExists (fs : FileSys) (p : String) : Bool := fs.any (fun e => e.1 == p)

def fsRead (fs : FileSys) (p : String) : String :=
  ((fs.find? (fun e => e.1 == p)).map (fun e => e.2)).getD ""

def fsWrite (fs : FileSys) (p v : String) : FileSys := (p, v) :: fs

def fsCopy (fs : FileSys) (src dst : String) : FileSys := fsWrite fs dst (fsRead fs src)

/-- The state of an `ErrorFixer` when `save` runs. -/
structure FixerState where
  htmlPath : String
  fixed : Bool
  serialized : String

/--
`ErrorFixer.save(backupOriginal = true)` (source lines 41–60): return `false`
if nothing was fixed; when backing up, copy the original to `<path>.backup`
only if that file does not exist yet (the one-time backup); then write the
serialized fixed content back to the original path.
-/
def errorFixerSave (st : FixerState) (backupOriginal : Bool) (fs : FileSys) : FileSys × Bool :=
  if st.fixed = false then (fs, false)
  else
    let fs1 :=
      if backupOriginal then
        if fsExists fs (st.htmlPath ++ ".backup") then fs
        else fsCopy fs st.htmlPath (st.htmlPath ++ ".backup")
      else fs
    (fsWrite fs1 st.htmlPath st.serialized, true)

/--
One fixer of the chain, abstracted over its two virtual methods: `canFix`
receives the error message and the current html content; `fix` returns the
serialized fixed document when the fixer changed something (`fix()` returning
`true`), else `none`.
-/
structure FixerSpec where
  canFixFn : String → String → Bool
  fixFn : String → Option String

/--
One iteration of the fixer loop of `autoFixHtml` (source lines 515–539): on a
successful fix the fixer saves itself with `save(false)` — no backup — and
the updated serialization becomes the input of the later fixers.
-/
def autoFixStep (htmlPath errorMessage : String) (st : FileSys × String × Bool) (f : FixerSpec) :
    FileSys × String × Bool :=
  if f.canFixFn errorMessage st.2.1 then
    match f.fixFn st.2.1 with
    | some newContent =>
      ((errorFixerSave ⟨htmlPath, true, newContent⟩ false st.1).1, newContent, true)
    | none => st
  else st

/--
`autoFixHtml(htmlPath, errorMessage, options)` (source lines 502–548).  The
`backup` option is destructured from `options` (defaulting to `false`) but —
exactly as in the source — never used afterwards: every save happens through
`fixer.save(false)`.  Returns the final file system and whether any fixer
fixed.
-/
def autoFixHtml (fixers : List FixerSpec) (htmlPath errorMessage : String)
    (backup : Bool) (fs : FileSys) : FileSys × Bool :=
  let original := fsRead fs htmlPath
  let res := fixers.foldl (autoFixStep htmlPath errorMessage) (fs, original, false)
  (res.1, res.2.2)

-- ============================================================
-- C3: container border extraction (`extractSlideData`, lines 1417–1583)
-- ============================================================

/-- A bounding client rect, in pixels. -/
structure Rect where
  left : ℚ
  top : ℚ
  width : ℚ
  height : ℚ
deriving DecidableEq

/-- The computed-style fields read by the DIV-container branch of
`extractSlideData`.  `borderWidth` is the computed shorthand, which for a
uniform border equals the common edge width. -/
structure DivComputed where
  backgroundColor : String := "rgba(0, 0, 0, 0)"
  backgroundImage : String := "none"
  borderTopWidth : ℚ := 0
  borderRightWidth : ℚ := 0
  borderBottomWidth : ℚ := 0
  borderLeftWidth : ℚ := 0
  borderTopColor : String := "rgb(0, 0, 0)"
  borderRightColor : String := "rgb(0, 0, 0)"
  borderBottomColor : String := "rgb(0, 0, 0)"
  borderLeftColor : String := "rgb(0, 0, 0)"
  borderColor : String := "rgb(0, 0, 0)"
  borderWidth : ℚ := 0
  borderRadius : String := "0px"
  boxShadow : String := "none"
deriving DecidableEq

/-- Stroke of a shape (`line: { color, width }` with the width in points). -/
structure LineStroke where
  color : String
  width : ℚ
deriving DecidableEq

/-- The slide elements the container branch can emit: a `shape` (positions in
inches) or a border `line` segment (endpoints in inches, width in points). -/
inductive SlideEl where
  | shape (x y w h : ℚ) (fill : Option String) (transparency : Option ℤ)
      (stroke : Option LineStroke) (radius : Option ℚ) (shadow : Option String)
      (text : String)
  | lineEl (x1 y1 x2 y2 : ℚ) (width : ℚ) (color : String)
deriving DecidableEq

/--
Abstraction of `parseBoxShadow` (source lines 1122–1174) sufficient for the
border claims: `null` for missing/`"none"`/inset shadows; otherwise the
computed string is carried opaquely (its numeric decomposition uses
`atan2`/`sqrt` over floats, which no claim depends on).
-/
def parseBoxShadowAbs (boxShadow : String) : Option String :=
  if boxShadow = "" ∨ boxShadow = "none" then none
  else if strContainsB boxShadow "inset" then none
  else some boxShadow

/-- `hasBg` of the container branch (source lines 1422–1425). -/
def divHasBg (st : DivComputed) : Bool :=
  !(st.backgroundColor == "") && !(st.backgroundColor == "rgba(0, 0, 0, 0)")

/-- `[borderTop, borderRight, borderBottom, borderLeft].map(b => parseFloat(b) || 0)`
(source lines 1456–1458), the widths already taken as numbers. -/
def divBorders (st : DivComputed) : List ℚ :=
  [st.borderTopWidth, st.borderRightWidth, st.borderBottomWidth, st.borderLeftWidth]

/-- `borders.some(b => b > 0)` (source line 1459). -/
def divHasBorder (st : DivComputed) : Bool := (divBorders st).any (fun b => decide (0 < b))

/-- `hasBorder && borders.every(b => b === borders[0])` (source lines 1460–1461). -/
def divHasUniformBorder (st : DivComputed) : Bool :=
  divHasBorder st && (divBorders st).all (fun b => decide (b = st.borderTopWidth))

/--
The inset border lines collected for a non-uniform border (source lines
1464–1524): one line per non-zero edge, each inset by half its stroke width
(stroke width in points, the inset converted to inches by the further `/ 72`)
so the line center sits on the box edge.
-/
def divBorderLines (st : DivComputed) (rect : Rect) : List SlideEl :=
  (if 0 < st.borderTopWidth then
    [SlideEl.lineEl (pxToInch rect.left)
      (pxToInch rect.top + pxToPoints st.borderTopWidth / 72 / 2)
      (pxToInch rect.left + pxToInch rect.width)
      (pxToInch rect.top + pxToPoints st.borderTopWidth / 72 / 2)
      (pxToPoints st.borderTopWidth) (rgbToHex st.borderTopColor)] else []) ++
  (if 0 < st.borderRightWidth then
    [SlideEl.lineEl
      (pxToInch rect.left + pxToInch rect.width - pxToPoints st.borderRightWidth / 72 / 2)
      (pxToInch rect.top)
      (pxToInch rect.left + pxToInch rect.width - pxToPoints st.borderRightWidth / 72 / 2)
      (pxToInch rect.top + pxToInch rect.height)
      (pxToPoints st.borderRightWidth) (rgbToHex st.borderRightColor)] else []) ++
  (if 0 < st.borderBottomWidth then
    [SlideEl.lineEl (pxToInch rect.left)
      (pxToInch rect.top + pxToInch rect.height - pxToPoints st.borderBottomWidth / 72 / 2)
      (pxToInch rect.left + pxToInch rect.width)
      (pxToInch rect.top + pxToInch rect.height - pxToPoints st.borderBottomWidth / 72 / 2)
      (pxToPoints st.borderBottomWidth) (rgbToHex st.borderBottomColor)] else []) ++
  (if 0 < st.borderLeftWidth then
    [SlideEl.lineEl
      (pxToInch rect.left + pxToPoints st.borderLeftWidth / 72 / 2)
      (pxToInch rect.top)
      (pxToInch rect.left + pxToPoints st.borderLeftWidth / 72 / 2)
      (pxToInch rect.top + pxToInch rect.height)
      (pxToPoints st.borderLeftWidth) (rgbToHex st.borderLeftColor)] else [])

/-- The shape element pushed for a div with background or uniform border
(source lines 1532–1575). -/
def divShapeEl (st : DivComputed) (rect : Rect) : SlideEl :=
  SlideEl.shape (pxToInch rect.left) (pxToInch rect.top) (pxToInch rect.width)
    (pxToInch rect.height)
    (if divHasBg st then some (rgbToHex st.backgroundColor) else none)
    (if divHasBg st then extractAlpha st.backgroundColor else none)
    (if divHasUniformBorder st then
      some ⟨rgbToHex st.borderColor, pxToPoints st.borderWidth⟩ else none)
    (rectRadius st.borderRadius rect.width rect.height)
    (parseBoxShadowAbs st.boxShadow)
    ""

/--
The DIV-container branch of `extractSlideData` (source lines 1417–1583):
report unwrapped direct text children; abort on a background image; then for
non-zero area emit the shape (when there is a background or a uniform
border) followed by the inset border lines (when the border is non-uniform).
Returns the emitted elements and the accumulated validation errors.
-/
def processDiv (st : DivComputed) (rect : Rect) (directTexts : List String) :
    List SlideEl × List String :=
  let errs1 := directTexts.filterMap (fun t =>
    let tt := jsTrim t
    if tt = "" then none
    else some ("DIV 元素包含未包裹文本“" ++ strTake tt 50 ++
      (if 50 < tt.length then "..." else "") ++
      "”。所有文本必须用 <p>、<h1>-<h6>、<ul> 或 <ol> 标签包裹，才能在 PPT 中显示。"))
  if !(st.backgroundImage == "") && !(st.backgroundImage == "none") then
    ([], errs1 ++ ["DIV 元素上的背景图片不支持。请使用纯色或边框作为形状，或用 slide.addImage() 叠加图片。"])
  else
    let borderLines :=
      if divHasBorder st && !divHasUniformBorder st then divBorderLines st rect else []
    if (divHasBg st || divHasBorder st) && (decide (0 < rect.width) && decide (0 < rect.height)) then
      ((if divHasBg st || divHasUniformBorder st then [divShapeEl st rect] else []) ++ borderLines,
        errs1)
    else ([], errs1)

def isShapeB : SlideEl → Bool
  | .shape .. => true
  | .lineEl .. => false

def isLineB : SlideEl → Bool
  | .shape .. => false
  | .lineEl .. => true

def shapeStroke : SlideEl → Option LineStroke
  | .shape _ _ _ _ _ _ stroke _ _ _ => stroke
  | .lineEl .. => none

-- ============================================================
-- C5: inline run parsing (`parseInlineFormatting`, lines 1177–1286)
-- ============================================================

/-- Concatenation of a list of strings (JS string accumulation). -/
def strConcat : List String → String
  | [] => ""
  | s :: rest => s ++ strConcat rest

/-- JS `\w` word characters `[A-Za-z0-9_]`. -/
def isWordCh (c : Char) : Bool := c.isAlphanum || c == '_'

/-- `text.replace(/\b\w/g, (c) => c.toUpperCase())`: uppercase each word
character that starts a word.  The flag carries whether the previous
character was a word character. -/
def capitalizeAux : Bool → List Char → List Char
  | _, [] => []
  | prevW, c :: rest =>
    (if isWordCh c && !prevW then c.toUpper else c) :: capitalizeAux (isWordCh c) rest

def capitalizeJs (s : String) : String := String.mk (capitalizeAux false s.data)

/-- `applyTextTransform` (source lines 1035–1042). -/
def applyTextTransform (text textTransform : String) : String :=
  if textTransform = "uppercase" then strToUpper text
  else if textTransform = "lowercase" then strToLower text
  else if textTransform = "capitalize" then capitalizeJs text
  else text

/-- `text.replace(/\s+/g, " ")`: collapse every whitespace run to one space. -/
def collapseWsAux : Bool → List Char → List Char
  | _, [] => []
  | inWs, c :: rest =>
    if isWsChar c then
      if inWs then collapseWsAux true rest else ' ' :: collapseWsAux true rest
    else c :: collapseWsAux false rest

def collapseWs (s : String) : String := String.mk (collapseWsAux false s.data)

/-- Strip `'` and `"` (JS `replace(/['"]/g, "")`). -/
def stripQuotes (s : String) : String :=
  String.mk (s.data.filter (fun c => !(c == Char.ofNat 39 || c == Char.ofNat 34)))

/-- `shouldSkipBold` (source lines 1002–1010) with
`SINGLE_WEIGHT_FONTS = ["impact"]`. -/
def shouldSkipBold (fontFamily : String) : Bool :=
  if fontFamily == "" then false
  else
    ["impact"].contains (jsTrim ((splitOnCharStr ',' (stripQuotes (strToLower fontFamily))).headD ""))

/-- `computed.fontWeight === "bold" || parseInt(computed.fontWeight) >= 600`. -/
def isBoldWeight (fontWeight : String) : Bool :=
  fontWeight == "bold" ||
    (match jsParseInt fontWeight with
     | some n => decide (600 ≤ n)
     | none => false)

/-- The computed-style fields that the inline run parser reads on an inline
carrier element. -/
structure InlineComputed where
  fontWeight : String := "400"
  fontStyle : String := "normal"
  textDecoration : String := "none solid rgb(0, 0, 0)"
  color : String := "rgb(0, 0, 0)"
  fontSize : ℚ := 16
  fontFamily : String := "Arial"
  textTransform : String := "none"
  marginLeft : ℚ := 0
  marginRight : ℚ := 0
  marginTop : ℚ := 0
  marginBottom : ℚ := 0
deriving DecidableEq

/-- Run options (`{bold?, italic?, underline?, color?, transparency?,
fontSize?, bullet?, breakLine?}`); `none` is an absent JS object field. -/
structure RunOptions where
  bold : Option Bool := none
  italic : Option Bool := none
  underline : Option Bool := none
  color : Option String := none
  transparency : Option ℤ := none
  fontSize : Option ℚ := none
  bullet : Option ℚ := none
  breakLine : Option Bool := none
deriving DecidableEq

/-- A text run `{ text, options }`. -/
structure Run where
  text : String
  options : RunOptions
deriving DecidableEq

mutual
/-- DOM child nodes of a text-bearing element: text nodes, `<br>`, and
nested inline elements with their computed style. -/
inductive DomNode where
  | textNode (s : String)
  | br
  | inlineEl (tag : String) (computed : InlineComputed) (children : DomForest)

inductive DomForest where
  | nil
  | cons (hd : DomNode) (tl : DomForest)
end

mutual
/-- `node.textContent`. -/
def nodeTextContent : DomNode → String
  | .textNode s => s
  | .br => ""
  | .inlineEl _ _ cs => forestTextContent cs

def forestTextContent : DomForest → String
  | .nil => ""
  | .cons n t => nodeTextContent n ++ forestTextContent t
end

/-- The shared mutable state of the parse: the `runs` array and the
enclosing `errors` list. -/
structure PState where
  runs : List Run
  perrs : List String
deriving DecidableEq

/-- `prevRun.text += text` (append to the last run of the array). -/
def modifyLastRun : List Run → String → List Run
  | [], _ => []
  | [r], t => [⟨r.text ++ t, r.options⟩]
  | r :: r2 :: rs, t => r :: modifyLastRun (r2 :: rs) t

/-- `runs[0].text = runs[0].text.replace(/^\s+/, "")`. -/
def trimFirstLeading : List Run → List Run
  | [] => []
  | r :: rs => ⟨trimLeading r.text, r.options⟩ :: rs

/-- `runs[runs.length-1].text = ....replace(/\s+$/, "")`. -/
def trimLastTrailing : List Run → List Run
  | [] => []
  | [r] => [⟨trimTrailing r.text, r.options⟩]
  | r :: r2 :: rs => r :: trimLastTrailing (r2 :: rs)

/-- The trim step at the end of every `parseInlineFormatting` call
(source lines 1277–1283), acting on the shared runs array. -/
def trimEndsState (st : PState) : PState :=
  ⟨trimLastTrailing (trimFirstLeading st.runs), st.perrs⟩

/-- Apply the current text-transform closure: `none` is the identity default
parameter, `some ts` is `(text) => applyTextTransform(text, ts)`. -/
def ttApply (tt : Option String) (s : String) : String :=
  match tt with
  | none => s
  | some ts => applyTextTransform s ts

/-- Option accumulation for an inline carrier (source lines 1205–1240):
bold/italic/underline/color(+transparency)/fontSize, each layered over the
inherited base options.  `fontSize` is always set because a computed
`font-size` string is always non-empty (truthy). -/
def spanOptions (base : RunOptions) (c : InlineComputed) : RunOptions :=
  let o1 := if isBoldWeight c.fontWeight && !shouldSkipBold c.fontFamily then
    { base with bold := some true } else base
  let o2 := if c.fontStyle == "italic" then { o1 with italic := some true } else o1
  let o3 := if !(c.textDecoration == "") && strContainsB c.textDecoration "underline" then
    { o2 with underline := some true } else o2
  let o4 := if !(c.color == "") && !(c.color == "rgb(0, 0, 0)") then
    { o3 with
      color := some (rgbToHex c.color)
      transparency :=
        match extractAlpha c.color with
        | some t => some t
        | none => o3.transparency } else o3
  { o4 with fontSize := some (pxToPoints c.fontSize) }

/-- The text-transform override of a carrier (source lines 1237–1240): a
non-`none` computed `text-transform` replaces the inherited closure. -/
def spanTextTransform (tt : Option String) (c : InlineComputed) : Option String :=
  if !(c.textTransform == "") && !(c.textTransform == "none") then some c.textTransform else tt

/-- The inline-margin validation errors of a carrier (source lines
1244–1266), in source order left/right/top/bottom. -/
def spanMarginErrors (tagLower : String) (c : InlineComputed) : List String :=
  (if 0 < c.marginLeft then
    ["内联元素 <" ++ tagLower ++ "> 存在 margin-left，PPT 不支持。请移除内联元素的 margin。"] else []) ++
  (if 0 < c.marginRight then
    ["内联元素 <" ++ tagLower ++ "> 存在 margin-right，PPT 不支持。请移除内联元素的 margin。"] else []) ++
  (if 0 < c.marginTop then
    ["内联元素 <" ++ tagLower ++ "> 存在 margin-top，PPT 不支持。请移除内联元素的 margin。"] else []) ++
  (if 0 < c.marginBottom then
    ["内联元素 <" ++ tagLower ++ "> 存在 margin-bottom，PPT 不支持。请移除内联元素的 margin。"] else [])

/-- The recognized inline carriers (source lines 1209–1216). -/
def inlineTags : List String := ["SPAN", "B", "STRONG", "I", "EM", "U"]

mutual
/--
The body of the `childNodes.forEach` of `parseInlineFormatting` for one node
(source lines 1185–1273), threading the shared runs/errors state and the
`prevNodeIsText` flag: a text node or `<br>` becomes a fragment that is
appended to the previous run when the previous sibling was also text,
otherwise pushed as a new run with the inherited options; an inline carrier
with non-blank text content contributes its computed options and is
recursively flattened (the recursive call ends with the first/last trim on
the shared array); any other node is skipped.
-/
def parseNode (n : DomNode) (base : RunOptions) (tt : Option String) (st : PState)
    (prevIsText : Bool) : PState :=
  match n with
  | .textNode s =>
    if prevIsText && !st.runs.isEmpty then
      ⟨modifyLastRun st.runs (ttApply tt (collapseWs s)), st.perrs⟩
    else ⟨st.runs ++ [⟨ttApply tt (collapseWs s), base⟩], st.perrs⟩
  | .br =>
    if prevIsText && !st.runs.isEmpty then ⟨modifyLastRun st.runs "\n", st.perrs⟩
    else ⟨st.runs ++ [⟨"\n", base⟩], st.perrs⟩
  | .inlineEl tag c children =>
    if !(jsTrim (forestTextContent children) == "") then
      if inlineTags.contains tag then
        trimEndsState (parseForest children (spanOptions base c) (spanTextTransform tt c)
          ⟨st.runs, st.perrs ++ spanMarginErrors (strToLower tag) c⟩ false)
      else st
    else st

def parseForest (f : DomForest) (base : RunOptions) (tt : Option String) (st : PState)
    (prevIsText : Bool) : PState :=
  match f with
  | .nil => st
  | .cons n rest =>
    parseForest rest base tt (parseNode n base tt st prevIsText)
      (match n with
       | .textNode _ => true
       | .br => true
       | .inlineEl _ _ _ => false)
end

/--
`parseInlineFormatting(element, baseOptions, [], baseTextTransform)` (source
lines 1177–1286) applied to an element's child nodes: walk the children,
trim leading whitespace of the first run and trailing whitespace of the last
run, and return only the non-empty runs (plus the accumulated margin
errors).
-/
def parseInlineFormatting (children : DomForest) (base : RunOptions) (tt : Option String) :
    List Run × List String :=
  let st := trimEndsState (parseForest children base tt ⟨[], []⟩ false)
  (st.runs.filter (fun r => decide (0 < r.text.length)), st.perrs)

def forestToList : DomForest → List DomNode
  | .nil => []
  | .cons n t => n :: forestToList t

def isTextLike : DomNode → Bool
  | .textNode _ => true
  | .br => true
  | .inlineEl _ _ _ => false

/-- The fragment text a flat (text/br) child contributes. -/
def flatFragText (tt : Option String) : DomNode → String
  | .textNode s => ttApply tt (collapseWs s)
  | .br => "\n"
  | .inlineEl _ _ _ => ""

/-- C5 counterexample input: `a<span> </span>b<span>cd </span>e` — a
whitespace-only span between two plain fragments, and a styled span whose
text has trailing whitespace followed by further plain text. -/
def c5demoForest : DomForest :=
  .cons (.textNode "a") (.cons (.inlineEl "SPAN" {} (.cons (.textNode " ") .nil))
    (.cons (.textNode "b") (.cons (.inlineEl "SPAN" {} (.cons (.textNode "cd ") .nil))
      (.cons (.textNode "e") .nil))))

/-- C5 witness input: an element whose children are only text and `<br>`. -/
def c5flatForest : DomForest :=
  .cons (.textNode " a ") (.cons .br (.cons (.textNode "b ") .nil))

-- ============================================================
-- C9: `CssGradientFixer` (source lines 375–497)
-- ============================================================

/--
Match `background:\s*<kw>[^;]+;` at the current position (`kw` is
`linear-gradient(` or `radial-gradient(`), returning the matched substring
and the rest.  The greedy `[^;]+` runs to the first semicolon, which the
pattern then consumes.
-/
def matchBgDeclAt (kw : List Char) (cs : List Char) : Option (List Char × List Char) :=
  match dropLit "background:".data cs with
  | none => none
  | some r1 =>
    let ws := r1.takeWhile isWsChar
    let r2 := r1.dropWhile isWsChar
    match dropLit kw r2 with
    | none => none
    | some r3 =>
      let body := r3.takeWhile (fun c => !(c == ';'))
      let r4 := r3.dropWhile (fun c => !(c == ';'))
      if body.isEmpty then none
      else
        match r4 with
        | ';' :: r5 => some ("background:".data ++ ws ++ kw ++ body ++ [';'], r5)
        | _ => none

/--
JS `String.replace` with a global regex embedded as a scanner: leftmost
match, the replacement is not rescanned, scanning resumes after the match.
`fuel` bounds the recursion; every step consumes at least one character, so
the initial `cs.length` never runs out before the scan completes.
-/
def replaceScanAux (matchAt : List Char → Option (List Char × List Char))
    (repl : List Char → List Char) : ℕ → List Char → List Char
  | 0, cs => cs
  | fuel + 1, cs =>
    match matchAt cs with
    | some (m, rest) => repl m ++ replaceScanAux matchAt repl fuel rest
    | none =>
      match cs with
      | [] => []
      | c :: rest => c :: replaceScanAux matchAt repl fuel rest

def replaceScan (matchAt : List Char → Option (List Char × List Char))
    (repl : List Char → List Char) (cs : List Char) : List Char :=
  replaceScanAux matchAt repl cs.length cs

/-- `[0-9a-fA-F]`. -/
def isHexDigit (c : Char) : Bool :=
  c.isDigit || (decide ('a' ≤ c) && decide (c ≤ 'f')) || (decide ('A' ≤ c) && decide (c ≤ 'F'))

/-- Match `#[0-9a-fA-F]{3,6}` at the current position (greedy, up to six
hex digits, at least three). -/
def tryHexColorAt (cs : List Char) : Option (List Char) :=
  match cs with
  | '#' :: rest =>
    let run := rest.takeWhile isHexDigit
    if run.length < 3 then none else some ('#' :: run.take 6)
  | _ => none

def searchHexColor : List Char → Option (List Char)
  | [] => none
  | c :: rest =>
    match tryHexColorAt (c :: rest) with
    | some m => some m
    | none => searchHexColor rest

/-- Match `rgba?\([^)]+\)` at the current position, returning the match. -/
def tryRgbParenAt (cs : List Char) : Option (List Char) :=
  match dropLit "rgb".data cs with
  | none => none
  | some r =>
    match r with
    | 'a' :: '(' :: rest =>
      let body := rest.takeWhile (fun c => !(c == ')'))
      let r2 := rest.dropWhile (fun c => !(c == ')'))
      if body.isEmpty then none
      else
        match r2 with
        | ')' :: _ => some ("rgba(".data ++ body ++ [')'])
        | _ => none
    | '(' :: rest =>
      let body := rest.takeWhile (fun c => !(c == ')'))
      let r2 := rest.dropWhile (fun c => !(c == ')'))
      if body.isEmpty then none
      else
        match r2 with
        | ')' :: _ => some ("rgb(".data ++ body ++ [')'])
        | _ => none
    | _ => none

def searchRgbParen : List Char → Option (List Char)
  | [] => none
  | c :: rest =>
    match tryRgbParenAt (c :: rest) with
    | some m => some m
    | none => searchRgbParen rest

/-- The alternation of `extractFirstColor`'s color-name regex, in source
order; matching is case-insensitive with `\b` boundaries on both sides. -/
def colorNames : List String :=
  ["red", "blue", "green", "yellow", "purple", "orange", "pink", "black", "white", "gray", "grey"]

/-- Case-insensitive literal match, returning the original-case matched
characters and the rest. -/
def matchNameCI : List Char → List Char → Option (List Char × List Char)
  | [], rest => some ([], rest)
  | _ :: _, [] => none
  | a :: as, b :: bs =>
    if a == b.toLower then
      match matchNameCI as bs with
      | some (m, rest) => some (b :: m, rest)
      | none => none
    else none

/-- Try the color-name alternatives in order at this position, requiring a
word boundary after the match. -/
def tryColorNamesAt : List String → List Char → Option (List Char)
  | [], _ => none
  | nm :: rest, cs =>
    match matchNameCI nm.data cs with
    | some (m, after) =>
      (match after with
       | [] => some m
       | c :: _ => if isWordCh c then tryColorNamesAt rest cs else some m)
    | none => tryColorNamesAt rest cs

/-- Leftmost case-insensitive color-name match with `\b` before (tracked by
whether the previous character was a word character). -/
def searchColorNameAux : Bool → List Char → Option (List Char)
  | _, [] => none
  | prevW, c :: rest =>
    match (if prevW then none else tryColorNamesAt colorNames (c :: rest)) with
    | some m => some m
    | none => searchColorNameAux (isWordCh c) rest

def searchColorName (cs : List Char) : Option (List Char) := searchColorNameAux false cs

/-- `extractFirstColor` (source lines 459–482): first hex literal, then
rgb/rgba literal, then a known color name, else the black fallback. -/
def extractFirstColor (gradientString : List Char) : List Char :=
  match searchHexColor gradientString with
  | some m => m
  | none =>
    match searchRgbParen gradientString with
    | some m => m
    | none =>
      match searchColorName gradientString with
      | some m => m
      | none => "#000000".data

/-- `fixLinearGradients` (source lines 430–439). -/
def fixLinearGradients (css : String) : String :=
  String.mk (replaceScan (matchBgDeclAt "linear-gradient(".data)
    (fun m => "background: ".data ++ extractFirstColor m ++ [';']) css.data)

/-- `fixRadialGradients` (source lines 445–454). -/
def fixRadialGradients (css : String) : String :=
  String.mk (replaceScan (matchBgDeclAt "radial-gradient(".data)
    (fun m => "background: ".data ++ extractFirstColor m ++ [';']) css.data)

/-- Match `background-image:\s*url\([^)]*\);` at the current position. -/
def matchBgImageAt (cs : List Char) : Option (List Char × List Char) :=
  match dropLit "background-image:".data cs with
  | none => none
  | some r1 =>
    let ws := r1.takeWhile isWsChar
    let r2 := r1.dropWhile isWsChar
    match dropLit "url(".data r2 with
    | none => none
    | some r3 =>
      let body := r3.takeWhile (fun c => !(c == ')'))
      let r4 := r3.dropWhile (fun c => !(c == ')'))
      match r4 with
      | ')' :: ';' :: r5 =>
        some ("background-image:".data ++ ws ++ "url(".data ++ body ++ [')'] ++ [';'], r5)
      | _ => none

/-- `fixBackgroundImages` (source lines 488–496): replace with the fixed
light-gray solid fill. -/
def fixBackgroundImages (css : String) : String :=
  String.mk (replaceScan matchBgImageAt (fun _ => "background-color: #f5f5f5;".data) css.data)

/-- One pass of `CssGradientFixer.fix` over one style block's text
(source lines 396–409): linear gradients, then radial gradients, then
background images. -/
def fixStyleBlock (css : String) : String :=
  fixBackgroundImages (fixRadialGradients (fixLinearGradients css))

/-- `CssGradientFixer.canFix` (source lines 376–389). -/
def cssGradientCanFix (errorMessage htmlContent : String) : Bool :=
  strContainsB errorMessage "请使用纯色或边框作为形状" ||
    (strContainsB htmlContent "linear-gradient" ||
      strContainsB htmlContent "radial-gradient" ||
      strContainsB htmlContent "background-image: url(")

/-- `CssGradientFixer.fix` over the document's style blocks (source lines
391–423): each changed block bumps `fixCount`; `fixed` is `fixCount > 0`. -/
def cssGradientFixerFix (styles : List String) : List String × Bool :=
  (styles.map fixStyleBlock, styles.any (fun s => !(fixStyleBlock s == s)))

/-- C9 counterexample markup: a linear-gradient declaration whose first
`rgb(...)` color argument itself contains a nested `background:
linear-gradient(` text. -/
def c9gradEx : String :=
  "background: linear-gradient(rgb(background: linear-gradient(x)rgb(red));"

/-- The spec's own end-to-end gradient example, as one style block. -/
def c9specCss : String :=
  ".background \x7b background: linear-gradient(to right, #ff0000, #0000ff); \x7d"

/-- A radial gradient plus a background image in one style block. -/
def c9radialCss : String :=
  ".hero \x7b background: radial-gradient(circle, rgba(240, 147, 251, 1) 0%, blue 100%); background-image: url(bg.png); \x7d"

-- ============================================================
-- C10: `TextElementBorderFixer` (source lines 67–259)
-- ============================================================

/-- Match `文本元素 <(\w+)> 存在 (边框|背景|阴影)` at the current position,
returning the two captures and the rest. -/
def tryTextPaintErrAt (cs : List Char) : Option (String × String × List Char) :=
  match dropLit "文本元素 <".data cs with
  | none => none
  | some r1 =>
    let tag := r1.takeWhile isWordCh
    let r2 := r1.dropWhile isWordCh
    if tag.isEmpty then none
    else
      match dropLit "> 存在 ".data r2 with
      | none => none
      | some r3 =>
        match dropLit "边框".data r3 with
        | some r4 => some (String.mk tag, "边框", r4)
        | none =>
          match dropLit "背景".data r3 with
          | some r4 => some (String.mk tag, "背景", r4)
          | none =>
            match dropLit "阴影".data r3 with
            | some r4 => some (String.mk tag, "阴影", r4)
            | none => none

/-- `matchAll` of the error pattern: leftmost matches, scanning resuming
after each match.  `fuel` bounds the recursion (each step consumes at least
one character). -/
def textPaintErrMatchesAux : ℕ → List Char → List (String × String)
  | 0, _ => []
  | _, [] => []
  | fuel + 1, c :: rest =>
    match tryTextPaintErrAt (c :: rest) with
    | some (tag, sty, after) => (tag, sty) :: textPaintErrMatchesAux fuel after
    | none => textPaintErrMatchesAux fuel rest

def textPaintErrMatches (cs : List Char) : List (String × String) :=
  textPaintErrMatchesAux cs.length cs

/-- `[...new Set(list)]`: order-preserving de-duplication. -/
def dedupKeepFirst (l : List String) : List String :=
  l.foldl (fun acc s => if acc.contains s then acc else acc ++ [s]) []

/-- `TextElementBorderFixer.canFix` (source lines 68–81). -/
def textBorderCanFix (errorMessage : String) : Bool :=
  !(textPaintErrMatches errorMessage.data).isEmpty

/-- `this.tagNames` after `canFix` (source line 76). -/
def textBorderTagNames (errorMessage : String) : List String :=
  dedupKeepFirst ((textPaintErrMatches errorMessage.data).map (fun p => p.1))

/-- The `containerStyleProps` list (source lines 159–177). -/
def containerStyleProps : List String :=
  ["background", "background-color", "background-image", "background-size",
   "background-position", "background-repeat", "background-attachment",
   "border", "border-top", "border-right", "border-bottom", "border-left",
   "border-width", "border-style", "border-color", "border-radius", "box-shadow"]

def openBrace : Char := Char.ofNat 123

def closeBrace : Char := Char.ofNat 125

/-- Match `\.className\s*\{([^}]+)\}` at the current position, returning
the block capture and the rest after the closing brace. -/
def tryClassRuleAt (className : List Char) (cs : List Char) : Option (List Char × List Char) :=
  match dropLit ('.' :: className) cs with
  | none => none
  | some r1 =>
    match r1.dropWhile isWsChar with
    | [] => none
    | b :: r3 =>
      if b == openBrace then
        let body := r3.takeWhile (fun c => !(c == closeBrace))
        let r4 := r3.dropWhile (fun c => !(c == closeBrace))
        if body.isEmpty then none
        else
          match r4 with
          | b2 :: r5 => if b2 == closeBrace then some (body, r5) else none
          | [] => none
      else none

/-- Leftmost match of the class-rule regex, returning the block capture
(`match[1]` in `separateStyles`). -/
def searchClassRule (className : List Char) : List Char → Option (List Char)
  | [] => none
  | c :: rest =>
    match tryClassRuleAt className (c :: rest) with
    | some (body, _) => some body
    | none => searchClassRule className rest

/-- `line.split(":")[0].trim()`. -/
def lineProp (line : String) : String := jsTrim ((splitOnCharStr ':' line).headD "")

/-- `containerStyleProps.some(cp => prop === cp || prop.startsWith(cp + "-"))`. -/
def isContainerProp (prop : String) : Bool :=
  containerStyleProps.any (fun cp => prop == cp || strStartsWithB prop (cp ++ "-"))

/-- `styleBlock.split(";").map(trim).filter(nonempty)` (source lines 188–191). -/
def styleLinesOf (block : String) : List String :=
  (((splitOnCharStr ';' block)).map jsTrim).filter (fun s => !(s == ""))

/--
`separateStyles` (source lines 157–213): extract the `.className { ... }`
block, split its declarations, and partition them into text-safe and
container-only declarations, each side re-joined with `;\n            `.
Returns `(textStyles, containerStyles)`.
-/
def separateStyles (cssContent className : String) : String × String :=
  match searchClassRule className.data cssContent.data with
  | none => ("", "")
  | some body =>
    let ls := styleLinesOf (String.mk body)
    (joinSep ";\n            " (ls.filter (fun l => !(isContainerProp (lineProp l)))),
     joinSep ";\n            " (ls.filter (fun l => isContainerProp (lineProp l))))

/-- The replacement rules built by `updateStyles` (source lines 222–229). -/
def newRulesFor (className textStyles containerStyles tagName : String) : String :=
  (if !(containerStyles == "") then
    "        ." ++ className ++ " \x7b\n            " ++ containerStyles ++ ";\n        \x7d\n"
   else "") ++
  (if !(textStyles == "") then
    "        ." ++ className ++ " " ++ tagName ++ " \x7b\n            " ++ textStyles ++
      ";\n        \x7d"
   else "")

/-- First-occurrence replacement of the class rule (JS non-global
`replace`, source line 231). -/
def replaceClassRule (className : List Char) (newRules : List Char) : List Char → List Char
  | [] => []
  | c :: rest =>
    match tryClassRuleAt className (c :: rest) with
    | some (_, after) => newRules ++ after
    | none => c :: replaceClassRule className newRules rest

/-- `updateStyles` (source lines 218–233). -/
def updateStyles (cssContent className textStyles containerStyles tagName : String) : String :=
  String.mk (replaceClassRule className.data
    (newRulesFor className textStyles containerStyles tagName).data cssContent.data)

/-- An element as the fixer sees it: tag, class attribute, the remaining
attributes, and its inner HTML. -/
structure HtmlEl where
  tag : String
  className : String
  otherAttrs : List (String × String)
  innerHTML : String
deriving DecidableEq

/-- A document position: either the original element, or — after
`wrapElement` — a wrapper `div` carrying the class around the recreated
class-stripped element. -/
inductive ElSlot where
  | plain (e : HtmlEl)
  | wrapped (wrapperClass : String) (inner : HtmlEl)
deriving DecidableEq

/-- The document: its `<style>` blocks and its candidate elements in
document order. -/
structure HtmlDoc where
  styles : List String
  els : List ElSlot
deriving DecidableEq

def slotEl : ElSlot → HtmlEl
  | .plain e => e
  | .wrapped _ inner => inner

/-- `findStyleForClass` (source lines 143–152) refined to a zipper: the
first style block whose text includes `.className`, with the blocks before
and after it. -/
def findStyleSplit (className : String) : List String → Option (List String × String × List String)
  | [] => none
  | s :: rest =>
    if strContainsB s ("." ++ className) then some ([], s, rest)
    else
      match findStyleSplit className rest with
      | some (pre, x, suf) => some (s :: pre, x, suf)
      | none => none

/--
The per-element body of `TextElementBorderFixer.fix` (source lines 93–122):
skip elements without a class, without a located style block, or whose rule
has no container-only declarations; otherwise rewrite the style block via
`updateStyles` and wrap the element (`wrapElement`, source lines 238–259 —
the inner element keeps tag, attributes and content but loses the class).
Returns the updated style blocks and `some inner` when the element was
wrapped, `none` when it was left untouched.
-/
def fixOneEl (styles : List String) (e : HtmlEl) : List String × Option HtmlEl :=
  if e.className == "" then (styles, none)
  else
    match findStyleSplit e.className styles with
    | none => (styles, none)
    | some (pre, content, suf) =>
      let sep := separateStyles content e.className
      if jsTrim sep.2 == "" then (styles, none)
      else
        (pre ++ [updateStyles content e.className sep.1 sep.2 e.tag] ++ suf,
         some { e with className := "" })

/--
One element of the `querySelectorAll(tagName)` snapshot (source lines
90–122).  Elements wrapped while processing an earlier tag name are the
wrapper's inner elements; their class was stripped, so running the fixer on
them never changes anything, and the model skips them directly.  (Wrapper
`div`s themselves are only selectable for tag name `div`, which the
`文本元素` error pattern never produces for this fixer's tag list.)
-/
def fixTagStep (t : String) (acc : List String × List ElSlot × ℕ) (slot : ElSlot) :
    List String × List ElSlot × ℕ :=
  match slot with
  | .plain el =>
    if el.tag == t then
      match fixOneEl acc.1 el with
      | (styles2, some inner) =>
        (styles2, acc.2.1 ++ [ElSlot.wrapped el.className inner], acc.2.2 + 1)
      | (styles2, none) => (styles2, acc.2.1 ++ [slot], acc.2.2)
    else (acc.1, acc.2.1 ++ [slot], acc.2.2)
  | .wrapped _ _ => (acc.1, acc.2.1 ++ [slot], acc.2.2)

/-- The `elements.forEach` loop for one tag name, counting fixes. -/
def fixTag (t : String) (styles : List String) (els : List ElSlot) :
    List String × List ElSlot × ℕ :=
  els.foldl (fixTagStep t) (styles, [], 0)

/-- `TextElementBorderFixer.fix` (source lines 83–138): process every tag
name from the error matches over the progressively updated document;
`fixed` is `totalFixCount > 0`. -/
def textBorderFix (errorMessage : String) (doc : HtmlDoc) : HtmlDoc × Bool :=
  let res := (textBorderTagNames errorMessage).foldl (fun acc t =>
    let r := fixTag t acc.1 acc.2.1
    (r.1, r.2.1, acc.2.2 + r.2.2)) (doc.styles, doc.els, 0)
  (⟨res.1, res.2.1⟩, decide (0 < res.2.2))

/-- The claim's qualification predicate: the style block contains a rule for
the class with at least one container-only declaration. -/
def hasContainerRuleFor (styleContent className : String) : Bool :=
  !(jsTrim (separateStyles styleContent className).2 == "")

/-- C10 witness document: one `h1` whose class rule has only text-safe
declarations. -/
def c10doc : HtmlDoc :=
  { styles := [".t \x7b color: red; font-size: 20px \x7d"]
    els := [.plain { tag := "h1", className := "t", otherAttrs := [], innerHTML := "标题" }] }

-- Concrete styles for the C3 witness.
def c3stUniform : DivComputed :=
  { borderTopWidth := 2
    borderRightWidth := 2
    borderBottomWidth := 2
    borderLeftWidth := 2
    borderWidth := 2 }

def c3stTopOnly : DivComputed := { borderTopWidth := 4 }

def c3rect : Rect := ⟨0, 0, 192, 96⟩

-- ============================================================
-- Theorems
-- ============================================================

theorem truncQ_le_self (q : ℚ) (h : 0 ≤ q) : (truncQ q : ℚ) ≤ q := by
  simp only [truncQ, if_pos h]
  exact Int.floor_le q

theorem truncQ_gt (q : ℚ) : q - 1 < (truncQ q : ℚ) := by
  unfold truncQ
  split
  · have := Int.lt_floor_add_one q
    linarith
  · have := Int.le_ceil q
    linarith

theorem truncQ_ge_self (q : ℚ) (h : q < 0) : q ≤ (truncQ q : ℚ) := by
  simp only [truncQ, if_neg (not_le.mpr h)]
  exact Int.le_ceil q

theorem truncQ_lt (q : ℚ) : (truncQ q : ℚ) < q + 1 := by
  unfold truncQ
  split
  · have := Int.floor_le q
    linarith
  · have := Int.ceil_lt_add_one q
    linarith

theorem truncQ_intCast (k : ℤ) : truncQ (k : ℚ) = k := by
  unfold truncQ
  split <;> simp

theorem jsRem_lt_360 (a : ℚ) : jsRem a 360 < 360 := by
  unfold jsRem
  rcases le_or_lt 0 (a / 360) with h | h
  · have h1 := truncQ_gt (a / 360)
    have h2 : (a / 360 - 1) * 360 < (truncQ (a / 360) : ℚ) * 360 := by
      exact mul_lt_mul_of_pos_right h1 (by norm_num)
    have h3 : a / 360 * 360 = a := by field_simp
    nlinarith
  · have h1 := truncQ_ge_self (a / 360) h
    have h3 : a / 360 * 360 = a := by field_simp
    nlinarith

theorem jsRem_gt_neg360 (a : ℚ) : -360 < jsRem a 360 := by
  unfold jsRem
  rcases le_or_lt 0 (a / 360) with h | h
  · have h1 := truncQ_le_self (a / 360) h
    have h3 : a / 360 * 360 = a := by field_simp
    nlinarith
  · have h1 := truncQ_lt (a / 360)
    have h3 : a / 360 * 360 = a := by field_simp
    nlinarith

theorem jsRem_eq_zero_iff (a : ℚ) : jsRem a 360 = 0 ↔ ∃ k : ℤ, a = 360 * k := by
  constructor
  · intro h
    refine ⟨truncQ (a / 360), ?_⟩
    unfold jsRem at h
    linarith
  · rintro ⟨k, rfl⟩
    unfold jsRem
    have hdiv : (360 : ℚ) * k / 360 = (k : ℚ) := by field_simp
    rw [hdiv, truncQ_intCast]
    ring

/--
C6: rotation derivation maps every input angle (writing-mode composed with
any CSS transform rotation) into the range [0, 360); a net rotation that is a
multiple of 360° (in particular 0°) is represented as `none` (no rotate
field), never as the value `0`; a returned angle differs from the raw
composed angle by an integer multiple of 360.
-/
theorem c6_rotation_normalization (t : CssTransform) (wm : String) :
    (∀ a, getRotation t wm = some a →
        0 < a ∧ a < 360 ∧ ∃ k : ℤ, writingModeAngle wm + transformAngle t - a = 360 * k) ∧
    (getRotation t wm = none ↔ ∃ k : ℤ, writingModeAngle wm + transformAngle t = 360 * k) := by
  have hlt := jsRem_lt_360 (writingModeAngle wm + transformAngle t)
  have hgt := jsRem_gt_neg360 (writingModeAngle wm + transformAngle t)
  have hrem : writingModeAngle wm + transformAngle t
      - jsRem (writingModeAngle wm + transformAngle t) 360
      = 360 * (truncQ ((writingModeAngle wm + transformAngle t) / 360) : ℚ) := by
    unfold jsRem
    ring
  have hzero := jsRem_eq_zero_iff (writingModeAngle wm + transformAngle t)
  unfold getRotation
  by_cases hneg : jsRem (writingModeAngle wm + transformAngle t) 360 < 0
  · have hne : jsRem (writingModeAngle wm + transformAngle t) 360 + 360 ≠ 0 := by linarith
    simp only [if_pos hneg, if_neg hne]
    constructor
    · intro a ha
      have haeq := Option.some.inj ha
      refine ⟨by linarith [haeq ▸ (by linarith : (0:ℚ) < jsRem (writingModeAngle wm + transformAngle t) 360 + 360)], ?_, ?_⟩
      · rw [← haeq]
        linarith
      · refine ⟨truncQ ((writingModeAngle wm + transformAngle t) / 360) - 1, ?_⟩
        rw [← haeq]
        push_cast
        linarith
    · constructor
      · intro h
        exact absurd h (by simp)
      · intro hk
        have : jsRem (writingModeAngle wm + transformAngle t) 360 = 0 := hzero.mpr hk
        linarith
  · push_neg at hneg
    simp only [if_neg (not_lt.mpr hneg)]
    by_cases hz : jsRem (writingModeAngle wm + transformAngle t) 360 = 0
    · simp only [if_pos hz]
      refine ⟨fun a ha => absurd ha (by simp), ?_⟩
      simp only [true_iff]
      exact hzero.mp hz
    · simp only [if_neg hz]
      constructor
      · intro a ha
        have haeq := Option.some.inj ha
        refine ⟨?_, ?_, ?_⟩
        · rw [← haeq]
          exact lt_of_le_of_ne hneg (Ne.symm hz)
        · rw [← haeq]
          exact hlt
        · refine ⟨truncQ ((writingModeAngle wm + transformAngle t) / 360), ?_⟩
          rw [← haeq]
          linarith
      · constructor
        · intro h
          exact absurd h (by simp)
        · intro hk
          exact absurd (hzero.mpr hk) hz

/-- Witness for C6 at a concrete input: `writing-mode: vertical-rl` composed
with `rotate(450deg)` lands at 180, inside (0, 360). -/
theorem c6_rotation_normalization_witness :
    0 < (180 : ℚ) ∧ (180 : ℚ) < 360 ∧
      ∃ k : ℤ, writingModeAngle "vertical-rl" + transformAngle (.rotateDeg 450) - 180 = 360 * k :=
  (c6_rotation_normalization (.rotateDeg 450) "vertical-rl").1 180
    (by with_unfolding_all decide)

/--
C8: corner-radius conversion: a percentage radius of 50 or more yields the
full-ellipse factor 1 on a box of any dimensions; `25%` on a 200×100 px box
yields `0.25 * (100/96)` inches (the percentage applied to the shorter side,
converted px→inch); absolute radii divide by 72 when in points and by 96
otherwise (pixels).
-/
theorem c8_border_radius_conversion (s : String) (v w h : ℚ) :
    (jsParseFloat s = some v → strContainsB s "%" = true → 50 ≤ v →
        rectRadius s w h = some 1) ∧
    (rectRadius "25%" 200 100 = some ((25 : ℚ) / 100 * (100 / 96))) ∧
    (jsParseFloat s = some v → v ≠ 0 → strContainsB s "%" = false →
        strContainsB s "pt" = true → rectRadius s w h = some (v / 72)) ∧
    (jsParseFloat s = some v → v ≠ 0 → strContainsB s "%" = false →
        strContainsB s "pt" = false → rectRadius s w h = some (v / 96)) := by
  refine ⟨?_, ?_, ?_, ?_⟩
  · intro hp hc hv
    have hvne : ¬ v = 0 := by intro h; rw [h] at hv; norm_num at hv
    simp [rectRadius, hp, hc, hvne, hv]
  · have h25 : jsParseFloat "25%" = some 25 := by with_unfolding_all decide
    have hc : strContainsB "25%" "%" = true := by decide
    have hne : ¬ (25 : ℚ) = 0 := by norm_num
    have hlt : ¬ (50 : ℚ) ≤ 25 := by norm_num
    simp [rectRadius, h25, hc, hne, hlt, pxToInch]
    norm_num
  · intro hp hv hc hpt
    simp [rectRadius, hp, hv, hc, hpt]
  · intro hp hv hc hpt
    simp [rectRadius, hp, hv, hc, hpt]

/-- Witness for C8 at concrete inputs: `"50%"` on a 640×480 box gives factor 1,
and `"12pt"` gives `12/72` inch. -/
theorem c8_border_radius_conversion_witness :
    rectRadius "50%" 640 480 = some 1 ∧ rectRadius "12pt" 640 480 = some ((12 : ℚ) / 72) :=
  ⟨(c8_border_radius_conversion "50%" 50 640 480).1
      (by with_unfolding_all decide) (by decide) (by norm_num),
    (c8_border_radius_conversion "12pt" 12 640 480).2.2.1
      (by with_unfolding_all decide) (by norm_num) (by decide) (by decide)⟩

theorem containsSub_intro (p n q : String) : ContainsSub (p ++ (n ++ q)) n := ⟨p, q, rfl⟩

theorem containsSub_append_left (a : String) {hay n : String} (h : ContainsSub hay n) :
    ContainsSub (a ++ hay) n := by
  obtain ⟨p, q, rfl⟩ := h
  exact ⟨a ++ p, q, by rw [String.append_assoc]⟩

theorem containsSub_joinSep (sep : String) (l : List String) (x : String) (h : x ∈ l) :
    ContainsSub (joinSep sep l) x := by
  induction l with
  | nil => cases h
  | cons hd tl ih =>
    cases h with
    | head =>
      cases tl with
      | nil =>
        refine ⟨"", "", ?_⟩
        simp [joinSep]
      | cons t ts =>
        refine ⟨"", sep ++ joinSep sep (t :: ts), ?_⟩
        simp [joinSep, String.append_assoc]
    | tail _ hmem =>
      cases tl with
      | nil => cases hmem
      | cons t ts =>
        obtain ⟨p, q, hpq⟩ := ih hmem
        refine ⟨hd ++ sep ++ p, q, ?_⟩
        simp [joinSep, hpq, String.append_assoc]

/--
C1 (counterexample): with a single accumulated validation error, the failure
that `html2pptx` finally raises does not carry the error string verbatim —
the catch-all at the end of `html2pptx` prefixes it with the html file name.
-/
theorem c1_counterexample :
    html2pptxRun "slide.html" ["页面内容溢出"] = Except.error "slide.html: 页面内容溢出" ∧
    "slide.html: 页面内容溢出" ≠ "页面内容溢出" := by
  constructor
  · rfl
  · decide

/--
C1 (amended): with no accumulated error the slide is emitted; with errors no
slide is emitted and a single failure is raised; with exactly one error the
raised message is exactly that error string, prefixed by `"<htmlFile>: "`
unless the error already starts with the file name; with several errors the
raised message is exactly the numbered multi-error summary put behind the
same file-name-prefix rule, where the summary contains, for every
accumulated error in order, the numbered item `  <i+1>. <error>`.
-/
theorem c1_error_aggregation (file : String) (errs : List String) :
    (errs = [] → html2pptxRun file errs = Except.ok ()) ∧
    (∀ e, errs = [e] →
        html2pptxRun file errs =
          Except.error (if strStartsWithB e file = true then e
            else file ++ ": " ++ e)) ∧
    (2 ≤ errs.length → ∃ M,
        M = "发现多个校验错误：\n" ++ joinSep "\n" (numberedErrorItems errs) ∧
        html2pptxRun file errs =
          Except.error (if strStartsWithB M file = true then M
            else file ++ ": " ++ M) ∧
        ∀ i (h : i < errs.length),
          ContainsSub M ("  " ++ toString (i + 1) ++ ". " ++ errs.get ⟨i, h⟩)) := by
  refine ⟨?_, ?_, ?_⟩
  · rintro rfl
    rfl
  · rintro e rfl
    by_cases hw : strStartsWithB e file = true
    · simp [html2pptxRun, aggregateErrorMessage, wrapFileError, hw]
    · simp [html2pptxRun, aggregateErrorMessage, wrapFileError, hw]
  · intro hlen
    match errs, hlen with
    | a :: b :: ts, _ =>
      refine ⟨"发现多个校验错误：\n" ++ joinSep "\n" (numberedErrorItems (a :: b :: ts)),
        rfl, ?_, ?_⟩
      · by_cases hw : strStartsWithB
            ("发现多个校验错误：\n" ++ joinSep "\n" (numberedErrorItems (a :: b :: ts)))
            file = true
        · simp [html2pptxRun, aggregateErrorMessage, wrapFileError, hw]
        · simp [html2pptxRun, aggregateErrorMessage, wrapFileError, hw]
      · intro i h
        have hitem : ("  " ++ toString (i + 1) ++ ". " ++ (a :: b :: ts).get ⟨i, h⟩)
            ∈ numberedErrorItems (a :: b :: ts) := by
          have hi : i < (a :: b :: ts).enum.length := by
            simpa [List.enum_length] using h
          have he : (a :: b :: ts).enum.get ⟨i, hi⟩ = (i, (a :: b :: ts).get ⟨i, h⟩) := by
            simp [List.get_eq_getElem, List.getElem_enum]
          have hmem : (i, (a :: b :: ts).get ⟨i, h⟩) ∈ (a :: b :: ts).enum := by
            rw [← he]
            exact List.get_mem _ _ _
          have := List.mem_map_of_mem
            (fun p => "  " ++ toString (p.1 + 1) ++ ". " ++ p.2) hmem
          simpa [numberedErrorItems] using this
        exact containsSub_append_left _ (containsSub_joinSep _ _ _ hitem)

/-- Witness for C1 (amended), exercising all three branches: no error, a
single error whose message gets the file-name prefix, and two errors whose
message is the prefixed numbered summary. -/
theorem c1_error_aggregation_witness :
    html2pptxRun "a.html" ([] : List String) = Except.ok () ∧
    html2pptxRun "a.html" ["甲错误"] =
      Except.error (if strStartsWithB "甲错误" "a.html" = true then "甲错误"
        else "a.html" ++ ": " ++ "甲错误") ∧
    ∃ M,
      M = "发现多个校验错误：\n" ++ joinSep "\n" (numberedErrorItems ["甲错误", "乙错误"]) ∧
      html2pptxRun "a.html" ["甲错误", "乙错误"] =
        Except.error (if strStartsWithB M "a.html" = true then M
          else "a.html" ++ ": " ++ M) ∧
      ∀ i (h : i < (["甲错误", "乙错误"] : List String).length),
        ContainsSub M ("  " ++ toString (i + 1) ++ ". " ++
          (["甲错误", "乙错误"] : List String).get ⟨i, h⟩) :=
  ⟨(c1_error_aggregation "a.html" []).1 rfl,
   (c1_error_aggregation "a.html" ["甲错误"]).2.1 "甲错误" rfl,
   (c1_error_aggregation "a.html" ["甲错误", "乙错误"]).2.2 (by decide)⟩

/--
C4 (counterexample): the claim says `rgba(0, 0, 0, 0)` extracts with no
transparency value attached, but `extractAlpha` — the function that computes
the attached transparency wherever a color is extracted — returns `100` for
it, not `null`.
-/
theorem c4_counterexample :
    rgbToHex "rgba(0, 0, 0, 0)" = "FFFFFF" ∧
    extractAlpha "rgba(0, 0, 0, 0)" = some 100 := by
  constructor
  · decide
  · with_unfolding_all decide

/--
C4 (amended): `rgba(0, 0, 0, 0)` and `transparent` both map to hex `FFFFFF`;
`transparent` carries no transparency value, while `rgba(0, 0, 0, 0)` yields
transparency `round((1 - 0) * 100) = 100`; `rgba(10, 20, 30, 0.25)` maps to
hex `0a141e` (lowercase digits) with transparency
`round((1 - 0.25) * 100) = 75`.
-/
theorem c4_color_extraction :
    rgbToHex "rgba(0, 0, 0, 0)" = "FFFFFF" ∧
    rgbToHex "transparent" = "FFFFFF" ∧
    extractAlpha "transparent" = none ∧
    extractAlpha "rgba(0, 0, 0, 0)" = some (jsRound ((1 - 0) * 100)) ∧
    rgbToHex "rgba(10, 20, 30, 0.25)" = "0a141e" ∧
    extractAlpha "rgba(10, 20, 30, 0.25)" = some (jsRound ((1 - 1/4) * 100)) ∧
    jsRound ((1 - (1 : ℚ)/4) * 100) = 75 := by
  refine ⟨by decide, by decide, by decide, ?_, by decide, ?_, ?_⟩
  · with_unfolding_all decide
  · with_unfolding_all decide
  · with_unfolding_all decide

theorem containsSub_append_right (b : String) {hay n : String} (h : ContainsSub hay n) :
    ContainsSub (hay ++ b) n := by
  obtain ⟨p, q, rfl⟩ := h
  exact ⟨p, q ++ b, by simp [String.append_assoc]⟩

theorem pxToPoints_pos_iff (v : ℚ) : 0 < pxToPoints v ↔ 0 < v := by
  unfold pxToPoints
  constructor
  · intro h
    nlinarith
  · intro h
    nlinarith

theorem widthOverflowPx_pos_iff (w sw : ℚ) : 0 < widthOverflowPx w sw ↔ w + 1 < sw := by
  unfold widthOverflowPx
  rw [lt_max_iff]
  constructor
  · rintro (h | h) <;> linarith
  · intro h
    right
    linarith

theorem heightOverflowPx_pos_iff (h sh : ℚ) : 0 < heightOverflowPx h sh ↔ h + 1 < sh := by
  unfold heightOverflowPx
  rw [lt_max_iff]
  constructor
  · rintro (hx | hx) <;> linarith
  · intro hx
    right
    linarith

theorem hvNeedleNe (a b : ℚ) : jsNumStr a ++ "px 水平方向" ≠ jsNumStr b ++ "px 垂直方向" := by
  intro hcontra
  have hd : (jsNumStr a ++ "px 水平方向").data = (jsNumStr b ++ "px 垂直方向").data := by
    rw [hcontra]
  rw [String.data_append, String.data_append] at hd
  have hlen : ("px 水平方向" : String).data.length = ("px 垂直方向" : String).data.length := by
    decide
  obtain ⟨-, h2⟩ := List.append_inj' hd hlen
  exact absurd h2 (by decide)

/--
C7: the overflow check raises its (single) error if and only if the
scrollable content size exceeds the declared body size by more than the 1px
tolerance on some axis; the horizontal (resp. vertical) overflow amount in
pixels appears among the reported directions exactly when that axis
overflows; the 48px footer-margin hint is attached exactly when vertical
overflow occurs; and the raised message contains every reported direction
and the reminder.
-/
theorem c7_overflow_check (w h sw sh : ℚ) :
    (bodyDimensionErrors w h sw sh ≠ [] ↔ (w + 1 < sw ∨ h + 1 < sh)) ∧
    ((jsNumStr (sw - w - 1) ++ "px 水平方向") ∈ overflowDirections w h sw sh ↔ w + 1 < sw) ∧
    ((jsNumStr (sh - h - 1) ++ "px 垂直方向") ∈ overflowDirections w h sw sh ↔ h + 1 < sh) ∧
    (overflowReminder h sh ≠ "" ↔ h + 1 < sh) ∧
    (∀ m ∈ bodyDimensionErrors w h sw sh,
        (∀ d ∈ overflowDirections w h sw sh, ContainsSub m d) ∧
        ContainsSub m (overflowReminder h sh)) := by
  have hW := widthOverflowPx_pos_iff w sw
  have hH := heightOverflowPx_pos_iff h sh
  have hWv : w + 1 < sw → widthOverflowPx w sw = sw - w - 1 := by
    intro hx
    unfold widthOverflowPx
    exact max_eq_right (by linarith)
  have hHv : h + 1 < sh → heightOverflowPx h sh = sh - h - 1 := by
    intro hx
    unfold heightOverflowPx
    exact max_eq_right (by linarith)
  refine ⟨?_, ?_, ?_, ?_, ?_⟩
  · unfold bodyDimensionErrors
    split
    · rename_i hcond
      simp only [ne_eq, List.cons_ne_nil, not_false_eq_true, true_iff]
      rcases hcond with hc | hc
      · exact Or.inl (hW.mp ((pxToPoints_pos_iff _).mp hc))
      · exact Or.inr (hH.mp ((pxToPoints_pos_iff _).mp hc))
    · rename_i hcond
      simp only [ne_eq, not_true_eq_false, false_iff, not_or]
      push_neg at hcond
      obtain ⟨h1, h2⟩ := hcond
      constructor
      · intro hx
        have := (pxToPoints_pos_iff (widthOverflowPx w sw)).mpr (hW.mpr hx)
        linarith
      · intro hx
        have := (pxToPoints_pos_iff (heightOverflowPx h sh)).mpr (hH.mpr hx)
        linarith
  · unfold overflowDirections
    by_cases hx : w + 1 < sw
    · rw [if_pos (hW.mpr hx), hWv hx]
      simp [hx]
    · rw [if_neg (fun hc => hx (hW.mp hc))]
      simp only [List.nil_append, hx, iff_false]
      intro hmem
      split at hmem
      · simp only [List.mem_singleton] at hmem
        exact hvNeedleNe (sw - w - 1) (heightOverflowPx h sh) hmem
      · simp at hmem
  · unfold overflowDirections
    by_cases hx : h + 1 < sh
    · rw [if_pos (hH.mpr hx), hHv hx]
      simp [hx, List.mem_append]
    · rw [if_neg (fun hc => hx (hH.mp hc))]
      simp only [List.append_nil, hx, iff_false]
      intro hmem
      split at hmem
      · simp only [List.mem_singleton] at hmem
        exact hvNeedleNe (widthOverflowPx w sw) (sh - h - 1) hmem.symm
      · simp at hmem
  · unfold overflowReminder
    by_cases hx : h + 1 < sh
    · rw [if_pos ((pxToPoints_pos_iff _).mpr (hH.mpr hx))]
      simp [hx]
    · rw [if_neg (fun hc => hx (hH.mp ((pxToPoints_pos_iff _).mp hc)))]
      simp [hx]
  · intro m hm
    unfold bodyDimensionErrors at hm
    split at hm
    · simp only [List.mem_singleton] at hm
      subst hm
      constructor
      · intro d hd
        unfold bodyOverflowMessage
        refine containsSub_append_right _ (containsSub_append_left _ ?_)
        exact containsSub_joinSep _ _ _ hd
      · unfold bodyOverflowMessage
        exact ⟨_, " ", rfl⟩
    · simp at hm

/-- Witness for C7 at a concrete input: a 960×540 body whose content scrolls
to 970×545 overflows 9px horizontally and 4px vertically. -/
theorem c7_overflow_check_witness :
    ((jsNumStr ((970 : ℚ) - 960 - 1) ++ "px 水平方向") ∈ overflowDirections 960 540 970 545 ↔
      (960 : ℚ) + 1 < 970) ∧
    (overflowReminder (540 : ℚ) 545 ≠ "" ↔ (540 : ℚ) + 1 < 545) :=
  ⟨(c7_overflow_check 960 540 970 545).2.1, (c7_overflow_check 960 540 970 545).2.2.2.1⟩

theorem path_ne_backup (p : String) : p ≠ p ++ ".backup" := by
  intro h
  have hlen := congrArg String.length h
  rw [String.length_append] at hlen
  have : (".backup" : String).length = 7 := by decide
  omega

theorem fsExists_fsWrite_ne (fs : FileSys) (p v q : String) (hne : p ≠ q) :
    fsExists (fsWrite fs p v) q = fsExists fs q := by
  simp only [fsExists, fsWrite, List.any_cons, Bool.or_eq_true]
  have : (p == q) = false := by
    simpa using hne
  simp [this]

theorem autoFixFoldBackupAbsent (htmlPath errorMessage : String) (fixers : List FixerSpec)
    (st : FileSys × String × Bool)
    (habsent : fsExists st.1 (htmlPath ++ ".backup") = false) :
    fsExists (fixers.foldl (autoFixStep htmlPath errorMessage) st).1 (htmlPath ++ ".backup") = false := by
  induction fixers generalizing st with
  | nil => simpa using habsent
  | cons f fl ih =>
    rw [List.foldl_cons]
    apply ih
    unfold autoFixStep
    split
    · cases hfix : f.fixFn st.2.1 with
      | none => simpa using habsent
      | some nc =>
        simp only [hfix]
        unfold errorFixerSave
        simp only [Bool.true_eq_false, if_neg (by simp : ¬ (true = false)), if_neg (by simp : ¬ (False))]
        rw [fsExists_fsWrite_ne _ _ _ _ (path_ne_backup htmlPath)]
        exact habsent
    · exact habsent

/--
C2 (code bug): `autoFixHtml` never creates the backup file, even when invoked
with `options.backup = true` and fixers that change the document — the
`backup` option is destructured and then ignored, every save happening via
`save(false)`.  By contrast `ErrorFixer.save` itself, invoked with
`backupOriginal = true` after a fix, does create the documented one-time
backup — the capability exists but `autoFixHtml` never passes the option on.
-/
theorem c2_backup_never_written (fixers : List FixerSpec) (htmlPath errorMessage : String)
    (fs : FileSys) (habsent : fsExists fs (htmlPath ++ ".backup") = false) :
    fsExists (autoFixHtml fixers htmlPath errorMessage true fs).1 (htmlPath ++ ".backup") = false ∧
    (∀ content : String,
      fsExists (errorFixerSave ⟨htmlPath, true, content⟩ true fs).1 (htmlPath ++ ".backup") = true) := by
  constructor
  · unfold autoFixHtml
    exact autoFixFoldBackupAbsent htmlPath errorMessage fixers (fs, fsRead fs htmlPath, false) habsent
  · intro content
    simp [errorFixerSave, fsCopy, habsent,
      fsExists_fsWrite_ne _ _ content _ (path_ne_backup htmlPath), fsExists, fsWrite]
    have h2 : (List.any fs fun e => e.1 == htmlPath ++ ".backup") = false := habsent
    simp [h2]

/--
Witness for C2 at the failing input: one applicable fixer that changes the
document, `backup = true` — the fix is applied (`true` is returned) and yet
no `slide.html.backup` appears on the file system.
-/
theorem c2_backup_never_written_witness :
    fsExists (autoFixHtml [⟨fun _ _ => true, fun c => some (c ++ "<p>fixed</p>")⟩]
        "slide.html" "发现校验错误" true [("slide.html", "<html></html>")]).1
      ("slide.html" ++ ".backup") = false ∧
    (autoFixHtml [⟨fun _ _ => true, fun c => some (c ++ "<p>fixed</p>")⟩]
        "slide.html" "发现校验错误" true [("slide.html", "<html></html>")]).2 = true :=
  ⟨(c2_backup_never_written [⟨fun _ _ => true, fun c => some (c ++ "<p>fixed</p>")⟩]
      "slide.html" "发现校验错误" [("slide.html", "<html></html>")] (by decide)).1,
    by decide⟩

theorem divBorderLines_filter_shape (st : DivComputed) (rect : Rect) :
    (divBorderLines st rect).filter isShapeB = [] := by
  unfold divBorderLines
  split_ifs <;> simp [isShapeB]

theorem divBorderLines_filter_line (st : DivComputed) (rect : Rect) :
    (divBorderLines st rect).filter isLineB = divBorderLines st rect := by
  unfold divBorderLines
  split_ifs <;> simp [isLineB]

theorem divBorderLines_all_line (st : DivComputed) (rect : Rect) :
    ∀ e ∈ divBorderLines st rect, isLineB e = true := by
  have hf := divBorderLines_filter_line st rect
  intro e he
  exact List.filter_eq_self.mp hf e he

theorem divBorderLines_length (st : DivComputed) (rect : Rect) :
    (divBorderLines st rect).length =
      ((divBorders st).filter (fun b => decide (0 < b))).length := by
  unfold divBorderLines divBorders
  by_cases h1 : 0 < st.borderTopWidth <;>
  by_cases h2 : 0 < st.borderRightWidth <;>
  by_cases h3 : 0 < st.borderBottomWidth <;>
  by_cases h4 : 0 < st.borderLeftWidth <;>
    simp [h1, h2, h3, h4, List.filter]

/--
C3: for a div with non-zero rendered area and no background image: if the
four computed border widths are all equal and positive, extraction emits
exactly one element — a shape whose stroke width is the common border width
converted to points — and no line elements; if some width is positive but
the four are not all equal, extraction emits a shape exactly when the div
has a background fill, every emitted shape carries no stroke, and exactly
one line element per non-zero edge is emitted, each inset from its box edge
by half its stroke width.
-/
theorem c3_border_extraction (st : DivComputed) (rect : Rect) (texts : List String)
    (harea : 0 < rect.width ∧ 0 < rect.height) (hbgi : st.backgroundImage = "none") :
    (st.borderTopWidth = st.borderRightWidth → st.borderRightWidth = st.borderBottomWidth →
      st.borderBottomWidth = st.borderLeftWidth → 0 < st.borderTopWidth →
      st.borderWidth = st.borderTopWidth →
        (processDiv st rect texts).1 = [divShapeEl st rect] ∧
        shapeStroke (divShapeEl st rect) =
          some ⟨rgbToHex st.borderColor, pxToPoints st.borderTopWidth⟩ ∧
        ((processDiv st rect texts).1.filter isLineB).length = 0) ∧
    (divHasBorder st = true → divHasUniformBorder st = false →
        ((processDiv st rect texts).1.filter isShapeB).length =
          (if divHasBg st then 1 else 0) ∧
        (∀ e ∈ (processDiv st rect texts).1, isShapeB e = true → shapeStroke e = none) ∧
        ((processDiv st rect texts).1.filter isLineB).length =
          ((divBorders st).filter (fun b => decide (0 < b))).length ∧
        (0 < st.borderTopWidth →
          SlideEl.lineEl (pxToInch rect.left)
            (pxToInch rect.top + pxToPoints st.borderTopWidth / 72 / 2)
            (pxToInch rect.left + pxToInch rect.width)
            (pxToInch rect.top + pxToPoints st.borderTopWidth / 72 / 2)
            (pxToPoints st.borderTopWidth) (rgbToHex st.borderTopColor)
            ∈ (processDiv st rect texts).1) ∧
        (0 < st.borderRightWidth →
          SlideEl.lineEl
            (pxToInch rect.left + pxToInch rect.width - pxToPoints st.borderRightWidth / 72 / 2)
            (pxToInch rect.top)
            (pxToInch rect.left + pxToInch rect.width - pxToPoints st.borderRightWidth / 72 / 2)
            (pxToInch rect.top + pxToInch rect.height)
            (pxToPoints st.borderRightWidth) (rgbToHex st.borderRightColor)
            ∈ (processDiv st rect texts).1) ∧
        (0 < st.borderBottomWidth →
          SlideEl.lineEl (pxToInch rect.left)
            (pxToInch rect.top + pxToInch rect.height - pxToPoints st.borderBottomWidth / 72 / 2)
            (pxToInch rect.left + pxToInch rect.width)
            (pxToInch rect.top + pxToInch rect.height - pxToPoints st.borderBottomWidth / 72 / 2)
            (pxToPoints st.borderBottomWidth) (rgbToHex st.borderBottomColor)
            ∈ (processDiv st rect texts).1) ∧
        (0 < st.borderLeftWidth →
          SlideEl.lineEl
            (pxToInch rect.left + pxToPoints st.borderLeftWidth / 72 / 2)
            (pxToInch rect.top)
            (pxToInch rect.left + pxToPoints st.borderLeftWidth / 72 / 2)
            (pxToInch rect.top + pxToInch rect.height)
            (pxToPoints st.borderLeftWidth) (rgbToHex st.borderLeftColor)
            ∈ (processDiv st rect texts).1)) := by
  obtain ⟨hw, hh⟩ := harea
  have hbgiF : (!(st.backgroundImage == "") && !(st.backgroundImage == "none")) = false := by
    rw [hbgi]
    decide
  constructor
  · intro h1 h2 h3 hpos hbw
    have e2 : st.borderRightWidth = st.borderTopWidth := h1.symm
    have e3 : st.borderBottomWidth = st.borderTopWidth := by rw [← h2, e2]
    have e4 : st.borderLeftWidth = st.borderTopWidth := by rw [← h3, e3]
    have hasB : divHasBorder st = true := by
      simp [divHasBorder, divBorders]
      exact Or.inl hpos
    have hasU : divHasUniformBorder st = true := by
      simp [divHasUniformBorder, divHasBorder, divBorders, e2, e3, e4, hpos]
    refine ⟨?_, ?_, ?_⟩
    · simp [processDiv, hbgiF, hasB, hasU, hw, hh]
    · simp [divShapeEl, shapeStroke, hasU, hbw]
    · simp [processDiv, hbgiF, hasB, hasU, hw, hh, isLineB, divShapeEl]
  · intro hasB hnotU
    have hout : (processDiv st rect texts).1 =
        (if divHasBg st then [divShapeEl st rect] else []) ++ divBorderLines st rect := by
      simp [processDiv, hbgiF, hasB, hnotU, hw, hh]
    refine ⟨?_, ?_, ?_, ?_, ?_, ?_, ?_⟩
    · rw [hout, List.filter_append, divBorderLines_filter_shape]
      split_ifs with hbg <;> simp [hbg, isShapeB, divShapeEl]
    · intro e he hse
      rw [hout] at he
      rcases List.mem_append.mp he with hmem | hmem
      · split_ifs at hmem with hbg
        · simp only [List.mem_singleton] at hmem
          subst hmem
          simp [divShapeEl, shapeStroke, hnotU]
        · simp at hmem
      · have hl := divBorderLines_all_line st rect e hmem
        cases e <;> simp_all [isLineB, isShapeB]
    · rw [hout, List.filter_append, divBorderLines_filter_line, List.length_append,
        divBorderLines_length]
      split_ifs with hbg <;> simp [isShapeB, isLineB, divShapeEl]
    · intro hpos
      rw [hout]
      refine List.mem_append_right _ ?_
      unfold divBorderLines
      rw [if_pos hpos]
      exact List.mem_append_left _ (List.mem_append_left _
        (List.mem_append_left _ (List.mem_singleton_self _)))
    · intro hpos
      rw [hout]
      refine List.mem_append_right _ ?_
      unfold divBorderLines
      rw [if_pos hpos]
      exact List.mem_append_left _ (List.mem_append_left _
        (List.mem_append_right _ (List.mem_singleton_self _)))
    · intro hpos
      rw [hout]
      refine List.mem_append_right _ ?_
      unfold divBorderLines
      rw [if_pos hpos]
      exact List.mem_append_left _ (List.mem_append_right _ (List.mem_singleton_self _))
    · intro hpos
      rw [hout]
      refine List.mem_append_right _ ?_
      unfold divBorderLines
      rw [if_pos hpos]
      exact List.mem_append_right _ (List.mem_singleton_self _)

/--
Witness for C3 at concrete inputs: a 2px uniform border on a 192×96 div at
the origin yields exactly the one stroked shape; a top-only 4px border emits
no shape (no background) and exactly one line.
-/
theorem c3_border_extraction_witness :
    (processDiv c3stUniform c3rect []).1 = [divShapeEl c3stUniform c3rect] ∧
    ((processDiv c3stTopOnly c3rect []).1.filter isLineB).length =
      ((divBorders c3stTopOnly).filter (fun b => decide (0 < b))).length :=
  ⟨((c3_border_extraction c3stUniform c3rect []
      (by constructor <;> norm_num [c3rect]) rfl).1 rfl rfl rfl (by norm_num [c3stUniform]) rfl).1,
    ((c3_border_extraction c3stTopOnly c3rect []
      (by constructor <;> norm_num [c3rect]) rfl).2 (by with_unfolding_all decide)
      (by with_unfolding_all decide)).2.2.1⟩

theorem domForestInduct (motive : DomForest → Prop) (hnil : motive .nil)
    (hcons : ∀ n t, motive t → motive (.cons n t)) : ∀ f, motive f :=
  fun f => @DomForest.rec (fun _ => True) motive (fun _ => trivial) trivial
    (fun _ _ _ _ => trivial) hnil (fun n t _ iht => hcons n t iht) f

theorem parseForest_cons (n : DomNode) (t : DomForest) (base : RunOptions)
    (tt : Option String) (st : PState) (p : Bool) :
    parseForest (.cons n t) base tt st p =
      parseForest t base tt (parseNode n base tt st p) (isTextLike n) := by
  cases n <;> rfl

theorem parseNode_text_merge (s : String) (base : RunOptions) (tt : Option String)
    (r : Run) (es : List String) :
    parseNode (.textNode s) base tt ⟨[r], es⟩ true =
      ⟨[⟨r.text ++ ttApply tt (collapseWs s), r.options⟩], es⟩ := rfl

theorem parseNode_br_merge (base : RunOptions) (tt : Option String) (r : Run)
    (es : List String) :
    parseNode .br base tt ⟨[r], es⟩ true = ⟨[⟨r.text ++ "\n", r.options⟩], es⟩ := rfl

theorem parseForestFlatRun (parts : DomForest) :
    (∀ n ∈ forestToList parts, isTextLike n = true) → ∀ (base opts : RunOptions)
      (tt : Option String) (es : List String) (acc : String),
    parseForest parts base tt ⟨[⟨acc, opts⟩], es⟩ true =
      ⟨[⟨acc ++ strConcat ((forestToList parts).map (flatFragText tt)), opts⟩], es⟩ := by
  induction parts using domForestInduct with
  | hnil =>
    intro _ base opts tt es acc
    simp [parseForest, forestToList, strConcat]
  | hcons n t ih =>
    intro hflat base opts tt es acc
    have hn : isTextLike n = true := hflat n (by simp [forestToList])
    have ht : ∀ m ∈ forestToList t, isTextLike m = true := fun m hm =>
      hflat m (by simp [forestToList, hm])
    rw [parseForest_cons, hn]
    cases n with
    | textNode s =>
      rw [parseNode_text_merge, ih ht base opts tt es _]
      simp [forestToList, strConcat, flatFragText, String.append_assoc]
    | br =>
      rw [parseNode_br_merge, ih ht base opts tt es _]
      simp [forestToList, strConcat, flatFragText, String.append_assoc]
    | inlineEl tag c children => simp [isTextLike] at hn

theorem parseForestFlatStart (n : DomNode) (t : DomForest)
    (hflat : ∀ m ∈ forestToList (.cons n t), isTextLike m = true)
    (base : RunOptions) (tt : Option String) :
    parseForest (.cons n t) base tt ⟨[], []⟩ false =
      ⟨[⟨strConcat ((forestToList (.cons n t)).map (flatFragText tt)), base⟩], []⟩ := by
  have hn : isTextLike n = true := hflat n (by simp [forestToList])
  have ht : ∀ m ∈ forestToList t, isTextLike m = true := fun m hm =>
    hflat m (by simp [forestToList, hm])
  rw [parseForest_cons, hn]
  cases n with
  | textNode s =>
    have h1 : parseNode (.textNode s) base tt ⟨[], []⟩ false =
        ⟨[⟨ttApply tt (collapseWs s), base⟩], []⟩ := rfl
    rw [h1, parseForestFlatRun t ht base base tt [] _]
    simp [forestToList, strConcat, flatFragText]
  | br =>
    have h1 : parseNode .br base tt ⟨[], []⟩ false = ⟨[⟨"\n", base⟩], []⟩ := rfl
    rw [h1, parseForestFlatRun t ht base base tt [] _]
    simp [forestToList, strConcat, flatFragText]
  | inlineEl tag c children => simp [isTextLike] at hn

theorem strLengthPos {s : String} (h : s ≠ "") : 0 < s.length := by
  cases s with
  | mk data =>
    cases data with
    | nil => exact absurd rfl h
    | cons c cs => simp [String.length]

/--
C5 (counterexample): the run sequence for
`a<span> </span>b<span>cd </span>e` (the middle span whitespace-only, the
second span carrying `cd `) keeps the two adjacent plain-text runs `a` and
`b` separate even though they carry identical options, and the run `cd `
loses its trailing whitespace in the middle of the sequence (the recursive
call trims the then-last run), contradicting both halves of the claim.
-/
theorem c5_counterexample :
    (parseInlineFormatting c5demoForest {} none).1 =
      [⟨"a", {}⟩, ⟨"b", {}⟩, ⟨"cd", { fontSize := some (pxToPoints 16) }⟩, ⟨"e", {}⟩] ∧
    (∃ r1 r2 rest, (parseInlineFormatting c5demoForest {} none).1 = r1 :: r2 :: rest ∧
      r1.options = r2.options ∧ r1.text = "a" ∧ r2.text = "b") := by
  constructor
  · with_unfolding_all decide
  · exact ⟨⟨"a", {}⟩, ⟨"b", {}⟩,
      [⟨"cd", { fontSize := some (pxToPoints 16) }⟩, ⟨"e", {}⟩],
      by with_unfolding_all decide, rfl, rfl, rfl⟩

/--
C5 (amended): fragments of consecutive text/`<br>` sibling nodes are merged
into a single run by concatenation — for an element whose children are all
text or `<br>` nodes the whole sequence collapses into at most one run
carrying the base options, whose text is the concatenation of all fragments
trimmed of leading and trailing whitespace only (an entirely-whitespace
sequence yields no run); fragments separated by an inline element boundary
are kept as separate runs even when their options coincide, and the trim at
the end of each recursive call can strip trailing whitespace of a
mid-sequence run (see the counterexample).
-/
theorem c5_run_merging (parts : DomForest) (base : RunOptions) (tt : Option String)
    (hflat : ∀ n ∈ forestToList parts, isTextLike n = true) :
    (parseInlineFormatting parts base tt).2 = [] ∧
    (parseInlineFormatting parts base tt).1 =
      (if jsTrim (strConcat ((forestToList parts).map (flatFragText tt))) = "" then []
       else [⟨jsTrim (strConcat ((forestToList parts).map (flatFragText tt))), base⟩]) := by
  cases parts with
  | nil =>
    constructor
    · rfl
    · have hz : jsTrim (strConcat ((forestToList DomForest.nil).map (flatFragText tt))) = "" := rfl
      rw [hz]
      rfl
  | cons n t =>
    unfold parseInlineFormatting
    rw [parseForestFlatStart n t hflat base tt]
    constructor
    · rfl
    · have htrim : trimEndsState
          ⟨[⟨strConcat ((forestToList (.cons n t)).map (flatFragText tt)), base⟩], []⟩ =
          ⟨[⟨jsTrim (strConcat ((forestToList (.cons n t)).map (flatFragText tt))), base⟩], []⟩ := by
        rfl
      rw [htrim]
      by_cases hz : jsTrim (strConcat ((forestToList (.cons n t)).map (flatFragText tt))) = ""
      · simp [hz, List.filter]
      · have hpos := strLengthPos hz
        simp [hz, List.filter, hpos]

/-- Witness for C5 (amended) at a concrete flat input ` a <br>b `. -/
theorem c5_run_merging_witness :
    (parseInlineFormatting c5flatForest {} none).2 = [] ∧
    (parseInlineFormatting c5flatForest {} none).1 =
      (if jsTrim (strConcat ((forestToList c5flatForest).map (flatFragText none))) = "" then []
       else [⟨jsTrim (strConcat ((forestToList c5flatForest).map (flatFragText none))), {}⟩]) :=
  c5_run_merging c5flatForest {} none (by decide)

/--
C9 (counterexample): the gradient fixer is not idempotent.  On the markup
`background: linear-gradient(rgb(background: linear-gradient(x)rgb(red));`
the first application replaces the whole declaration with its first
extracted color `rgb(background: linear-gradient(x)`, whose text contains a
fresh `background: linear-gradient(...)...;` declaration; the second
application matches and rewrites it again, and reports `fixed = true`
rather than "nothing was fixed".
-/
theorem c9_counterexample :
    fixStyleBlock (fixStyleBlock c9gradEx) ≠ fixStyleBlock c9gradEx ∧
    cssGradientCanFix "" (fixStyleBlock c9gradEx) = true ∧
    (cssGradientFixerFix [fixStyleBlock c9gradEx]).2 = true := by
  refine ⟨by decide, by decide, by decide⟩

/--
C9 (amended): the gradient fixer is not idempotent for every markup input
(see the counterexample, where an extracted color argument re-introduces a
gradient declaration); for gradient declarations whose arguments are plain
color lists — the spec's own example and a radial-gradient/background-image
block — one application resolves them and the second application leaves the
markup unchanged and reports that nothing was fixed.
-/
theorem c9_gradient_fixer_idempotence_on_plain_colors :
    fixStyleBlock c9specCss = ".background \x7b background: #ff0000; \x7d" ∧
    fixStyleBlock (fixStyleBlock c9specCss) = fixStyleBlock c9specCss ∧
    (cssGradientFixerFix [fixStyleBlock c9specCss]).2 = false ∧
    (cssGradientFixerFix [c9specCss]).2 = true ∧
    fixStyleBlock c9radialCss =
      ".hero \x7b background: rgba(240, 147, 251, 1); background-color: #f5f5f5; \x7d" ∧
    fixStyleBlock (fixStyleBlock c9radialCss) = fixStyleBlock c9radialCss ∧
    (cssGradientFixerFix [fixStyleBlock c9radialCss]).2 = false := by
  refine ⟨by decide, by decide, by decide, by decide, by decide, by decide, by decide⟩

theorem findStyleSplit_mem (className : String) :
    ∀ (styles pre : List String) (x : String) (suf : List String),
      findStyleSplit className styles = some (pre, x, suf) → x ∈ styles := by
  intro styles
  induction styles with
  | nil =>
    intro pre x suf h
    simp [findStyleSplit] at h
  | cons s rest ih =>
    intro pre x suf h
    unfold findStyleSplit at h
    split at h
    · rw [Option.some.injEq, Prod.mk.injEq, Prod.mk.injEq] at h
      obtain ⟨-, hx, -⟩ := h
      exact hx ▸ List.mem_cons_self s rest
    · split at h
      · rename_i pre2 x2 suf2 hrest
        rw [Option.some.injEq, Prod.mk.injEq, Prod.mk.injEq] at h
        obtain ⟨-, hx, -⟩ := h
        exact hx ▸ List.mem_cons_of_mem s (ih pre2 x2 suf2 hrest)
      · exact absurd h (by simp)

/--
C10: the border/background/shadow-on-text fixer modifies an element only
when it has a non-empty class attribute and some style block contains a
rule for that class with at least one container-only declaration: an
element with an empty class, or whose class has no stylesheet rule with
container-only declarations (in particular one whose paint comes solely
from an inline style attribute), is left completely untouched — the style
blocks included; and when no element of the document qualifies, the fixer
reports not fixed even though its error pattern matched the message.
-/
theorem c10_text_border_fixer (msg : String) (doc : HtmlDoc) :
    (∀ (styles : List String) (e : HtmlEl), e.className = "" →
        fixOneEl styles e = (styles, none)) ∧
    (∀ (styles : List String) (e : HtmlEl),
        (∀ s ∈ styles, hasContainerRuleFor s e.className = false) →
        fixOneEl styles e = (styles, none)) ∧
    (textBorderCanFix msg = true →
      (∀ sl ∈ doc.els, (slotEl sl).className = "" ∨
          ∀ s ∈ doc.styles, hasContainerRuleFor s (slotEl sl).className = false) →
      textBorderFix msg doc = (doc, false)) := by
  have h1 : ∀ (styles : List String) (e : HtmlEl), e.className = "" →
      fixOneEl styles e = (styles, none) := by
    intro styles e hc
    simp [fixOneEl, hc]
  have h2 : ∀ (styles : List String) (e : HtmlEl),
      (∀ s ∈ styles, hasContainerRuleFor s e.className = false) →
      fixOneEl styles e = (styles, none) := by
    intro styles e hno
    unfold fixOneEl
    cases hc : (e.className == "") with
    | true => simp
    | false =>
      simp only [hc, Bool.false_eq_true, if_false]
      cases hfind : findStyleSplit e.className styles with
      | none => rfl
      | some triple =>
        obtain ⟨pre, content, suf⟩ := triple
        have hmem := findStyleSplit_mem e.className styles pre content suf hfind
        have hrule := hno content hmem
        unfold hasContainerRuleFor at hrule
        have hskip : (jsTrim (separateStyles content e.className).2 == "") = true := by
          cases hx : (jsTrim (separateStyles content e.className).2 == "") <;> simp_all
        simp [hskip]
  have hstep : ∀ (t : String) (styles : List String) (pre : List ElSlot) (k : ℕ) (sl : ElSlot),
      ((slotEl sl).className = "" ∨
        ∀ s ∈ styles, hasContainerRuleFor s (slotEl sl).className = false) →
      fixTagStep t (styles, pre, k) sl = (styles, pre ++ [sl], k) := by
    intro t styles pre k sl hcond
    cases sl with
    | wrapped w inner => rfl
    | plain el =>
      unfold fixTagStep
      cases ht : (el.tag == t) with
      | false =>
        have ht2 : ¬ (el.tag = t) := by simpa using ht
        simp [fixTagStep, ht2]
      | true =>
        have hfix : fixOneEl styles el = (styles, none) := by
          rcases hcond with hc | hc
          · exact h1 styles el hc
          · exact h2 styles el hc
        simp [hfix]
  have hfold : ∀ (t : String) (els : List ElSlot) (styles : List String) (pre : List ElSlot)
      (k : ℕ),
      (∀ sl ∈ els, (slotEl sl).className = "" ∨
        ∀ s ∈ styles, hasContainerRuleFor s (slotEl sl).className = false) →
      els.foldl (fixTagStep t) (styles, pre, k) = (styles, pre ++ els, k) := by
    intro t els
    induction els with
    | nil =>
      intro styles pre k _
      simp
    | cons sl rest ih =>
      intro styles pre k hcond
      rw [List.foldl_cons, hstep t styles pre k sl (hcond sl (List.mem_cons_self _ _)),
        ih styles (pre ++ [sl]) k (fun m hm => hcond m (List.mem_cons_of_mem _ hm))]
      simp
  refine ⟨h1, h2, ?_⟩
  intro _ hcond
  have hTag : ∀ (t : String), fixTag t doc.styles doc.els = (doc.styles, doc.els, 0) := by
    intro t
    unfold fixTag
    rw [hfold t doc.els doc.styles [] 0 hcond]
    simp
  unfold textBorderFix
  have houter : ∀ (tags : List String) (k : ℕ),
      tags.foldl (fun acc t =>
        let r := fixTag t acc.1 acc.2.1
        (r.1, r.2.1, acc.2.2 + r.2.2)) (doc.styles, doc.els, k) = (doc.styles, doc.els, k) := by
    intro tags
    induction tags with
    | nil =>
      intro k
      simp
    | cons t rest ih =>
      intro k
      rw [List.foldl_cons]
      simp only [hTag t]
      exact ih k
  rw [houter (textBorderTagNames msg) 0]
  rfl

/-- Witness for C10: a matching error message over a document whose only
candidate `h1` has a class rule with only text-safe declarations — the
fixer reports not fixed and changes nothing. -/
theorem c10_text_border_fixer_witness :
    textBorderFix "文本元素 <h1> 存在 边框。仅 <div> 元素支持背景、边框和阴影，文本元素不支持。"
        c10doc = (c10doc, false) ∧
    textBorderCanFix "文本元素 <h1> 存在 边框。仅 <div> 元素支持背景、边框和阴影，文本元素不支持。" = true :=
  ⟨(c10_text_border_fixer
      "文本元素 <h1> 存在 边框。仅 <div> 元素支持背景、边框和阴影，文本元素不支持。" c10doc).2.2
      (by decide) (by decide),
    by decide⟩
